import Mathlib

/-!
Shallow embedding of `datetimerange/_core.py` (thombashi/DateTimeRange).

Conventions of the embedding:
* A Python `datetime.datetime` is a `DTime`: `val` is the instant in
  microseconds (for timezone-aware values this is the UTC instant, so that
  comparison, equality and subtraction of two aware values coincide with
  Python; for naive values it is the wall-clock value), and `tz` is the
  `tzinfo`: `none` for a naive value, `some o` for `tzoffset(None, o)`.
  Python raises `TypeError` when ordering or subtracting a naive and an
  aware datetime; this is modelled by `Except`-valued comparison helpers.
* A Python `datetime.timedelta` is a `Timedelta`: its exact value in
  microseconds.  `dateutil.relativedelta.relativedelta` is `Relativedelta`
  restricted to its seven integer components (the library's `_fix`
  normalization and componentwise comparison are translated below).  The
  `Union[timedelta, relativedelta]` arguments of `__add__`, `__sub__` and
  `range` are the inductive `Delta`; `datetime + relativedelta` is modelled
  by `dtAddRd` over an executable proleptic Gregorian calendar
  (`days_from_civil` / `civil_from_days`), performing dateutil's wall-clock
  month arithmetic with day-of-month clamping.
* `str(...)` / `strftime(...)` of the external datetime library are
  modelled by concrete rendering functions (`dtStr`, `tdStr`, `strftime`);
  only the facts that they return a string built from their arguments and
  never fail matter to the claims.
* Python exceptions are `PyErr`; a fallible method returns `Except PyErr`.
  The `range` generator is modelled by a fuel-indexed loop
  (`none` = fuel exhausted, i.e. the Python loop has not finished yet).
-/

inductive PyErr where
  | typeError (msg : String)
  | valueError (msg : String)
deriving DecidableEq, Repr

structure DTime where
  val : Int
  tz : Option Int
deriving DecidableEq, Repr

/-- Message Python emits when ordering/subtracting naive and aware datetimes. -/
def naiveAwareMsg : String := "cannot compare offset-naive and offset-aware datetimes"

def DTime.aware (d : DTime) : Bool := d.tz.isSome

/-- Python `a <= b` on datetimes: `TypeError` when exactly one side is aware. -/
def dtLe (a b : DTime) : Except PyErr Bool :=
  if a.aware = b.aware then .ok (decide (a.val ≤ b.val)) else .error (.typeError naiveAwareMsg)

/-- Python `a < b` on datetimes. -/
def dtLt (a b : DTime) : Except PyErr Bool :=
  if a.aware = b.aware then .ok (decide (a.val < b.val)) else .error (.typeError naiveAwareMsg)

/-- Python `a >= b` on datetimes. -/
def dtGe (a b : DTime) : Except PyErr Bool :=
  if a.aware = b.aware then .ok (decide (a.val ≥ b.val)) else .error (.typeError naiveAwareMsg)

/-- Python `a > b` on datetimes. -/
def dtGt (a b : DTime) : Except PyErr Bool :=
  if a.aware = b.aware then .ok (decide (a.val > b.val)) else .error (.typeError naiveAwareMsg)

/-- Python `a == b` on datetimes: mixed naive/aware compares unequal (no error). -/
def dtEq (a b : DTime) : Bool := a.aware = b.aware && a.val = b.val

structure Timedelta where
  usec : Int
deriving DecidableEq, Repr

/-- Python `a - b` on datetimes: `TypeError` when exactly one side is aware. -/
def dtSub (a b : DTime) : Except PyErr Timedelta :=
  if a.aware = b.aware then .ok ⟨a.val - b.val⟩ else .error (.typeError naiveAwareMsg)

/-- Python `d + t` (datetime plus timedelta); keeps the tzinfo. -/
def dtAddTd (d : DTime) (t : Timedelta) : DTime := { val := d.val + t.usec, tz := d.tz }

/-- Python `d - t` (datetime minus timedelta). -/
def dtSubTd (d : DTime) (t : Timedelta) : DTime := { val := d.val - t.usec, tz := d.tz }

/-- Python two-argument `max(a, b)`: returns `b` when `b > a`, else `a`. -/
def dtMax (a b : DTime) : Except PyErr DTime := do
  if (← dtGt b a) then pure b else pure a

/-- Python two-argument `min(a, b)`: returns `b` when `b < a`, else `a`. -/
def dtMin (a b : DTime) : Except PyErr DTime := do
  if (← dtLt b a) then pure b else pure a

/-- Model of `str(tzinfo)` used inside error messages. -/
def tzStr : Option Int → String
  | none => "None"
  | some o => "tzoffset(None, " ++ toString o ++ ")"

/-- Model of `str(datetime)` used inside error messages. -/
def dtStr (d : DTime) : String := toString d.val ++ "@" ++ tzStr d.tz

/-- Model of `str(timedelta)`: determined by the exact microsecond value. -/
def tdStr (t : Timedelta) : String := toString t.usec ++ "us"

/-- Model of `datetime.strftime(fmt)`: renders the instant through a (present)
format string; the exact text is irrelevant to the claims, only that it is a
function of the endpoint and the format and that it does not fail. -/
def strftime (d : DTime) (fmt : String) : String := fmt ++ "<" ++ dtStr d ++ ">"

/-- The seven integer components of a `dateutil.relativedelta.relativedelta`. -/
structure Relativedelta where
  years : Int
  months : Int
  days : Int
  hours : Int
  minutes : Int
  seconds : Int
  microseconds : Int
deriving DecidableEq, Repr

def Relativedelta.zero : Relativedelta :=
  { years := 0, months := 0, days := 0, hours := 0, minutes := 0, seconds := 0, microseconds := 0 }

/-- One carry step of `relativedelta._fix`: when `|x| > bound`, split `|x|` by
`base` keeping the sign (`divmod(x * sign, base)`), returning the reduced
component and the amount carried into the next larger component. -/
def carryFix (x bound base : Int) : Int × Int :=
  if bound < |x| then
    let s : Int := if x < 0 then -1 else 1
    ((x * s) % base * s, (x * s) / base * s)
  else (x, 0)

/-- `relativedelta._fix` (run by the constructor and hence by `normalized()`):
carries microseconds into seconds, seconds into minutes, minutes into hours,
hours into days, and months into years, all in sign-magnitude style. -/
def rdFix (r : Relativedelta) : Relativedelta :=
  let pu := carryFix r.microseconds 999999 1000000
  let seconds0 := r.seconds + pu.2
  let ps := carryFix seconds0 59 60
  let minutes0 := r.minutes + ps.2
  let pm := carryFix minutes0 59 60
  let hours0 := r.hours + pm.2
  let ph := carryFix hours0 23 24
  let days0 := r.days + ph.2
  let pmo := carryFix r.months 11 12
  let years0 := r.years + pmo.2
  { years := years0, months := pmo.1, days := days0,
    hours := ph.1, minutes := pm.1, seconds := ps.1, microseconds := pu.1 }

/-- `_compare_relativedelta`: lexicographic componentwise comparison from the
largest calendar unit down, returning -1 / 0 / 1. -/
def compare_relativedelta (lhs rhs : Relativedelta) : Int :=
  if lhs.years < rhs.years then -1 else if rhs.years < lhs.years then 1
  else if lhs.months < rhs.months then -1 else if rhs.months < lhs.months then 1
  else if lhs.days < rhs.days then -1 else if rhs.days < lhs.days then 1
  else if lhs.hours < rhs.hours then -1 else if rhs.hours < lhs.hours then 1
  else if lhs.minutes < rhs.minutes then -1 else if rhs.minutes < lhs.minutes then 1
  else if lhs.seconds < rhs.seconds then -1 else if rhs.seconds < lhs.seconds then 1
  else if lhs.microseconds < rhs.microseconds then -1
  else if rhs.microseconds < lhs.microseconds then 1
  else 0

/-- `int(td.total_seconds())`: truncation toward zero of usec / 10^6. -/
def Timedelta.intTotalSeconds (t : Timedelta) : Int := t.usec.tdiv 1000000

/-- Python `td.microseconds` attribute: the canonical nonnegative remainder. -/
def Timedelta.microseconds (t : Timedelta) : Int := t.usec.emod 1000000

/-- `_to_norm_relativedelta` on a `timedelta`:
`relativedelta(seconds=int(td.total_seconds()), microseconds=td.microseconds).normalized()`.
Note that for a negative sub-second timedelta this mangles the value
(e.g. -1 microsecond becomes +999999 microseconds). -/
def Timedelta.toNormRd (t : Timedelta) : Relativedelta :=
  rdFix { Relativedelta.zero with
            seconds := t.intTotalSeconds, microseconds := t.microseconds }

/-- The `Union[datetime.timedelta, relativedelta]` argument type. -/
inductive Delta where
  | td (t : Timedelta)
  | rd (r : Relativedelta)
deriving DecidableEq, Repr

/-- `_to_norm_relativedelta` on either branch of the union. -/
def Delta.toNormRd : Delta → Relativedelta
  | .td t => t.toNormRd
  | .rd r => rdFix r

/-- `_compare_timedelta(lhs, seconds)`. -/
def compare_timedelta (t : Timedelta) (seconds : Int) : Int :=
  compare_relativedelta t.toNormRd (rdFix { Relativedelta.zero with seconds := seconds })

/-- `_compare_timedelta` applied to either branch of the
`Union[timedelta, relativedelta]` step argument. -/
def compare_delta (s : Delta) (seconds : Int) : Int :=
  compare_relativedelta s.toNormRd (rdFix { Relativedelta.zero with seconds := seconds })

/-- `relativedelta.__neg__`: negates every component (used by
`datetime - relativedelta`). -/
def rdNeg (r : Relativedelta) : Relativedelta :=
  { years := -r.years, months := -r.months, days := -r.days, hours := -r.hours,
    minutes := -r.minutes, seconds := -r.seconds, microseconds := -r.microseconds }

/-- Proleptic Gregorian leap-year test (Python `calendar.isleap`). -/
def isLeap (y : Int) : Bool := (y % 4 = 0 && !(y % 100 = 0)) || y % 400 = 0

/-- Length of a month (Python `calendar.monthrange(y, m)[1]`). -/
def daysInMonth (y m : Int) : Int :=
  if m = 2 then (if isLeap y then 29 else 28)
  else if m = 4 ∨ m = 6 ∨ m = 9 ∨ m = 11 then 30
  else 31

/-- Days since 1970-01-01 of a proleptic Gregorian civil date (the standard
era-based conversion, modelling the calendar the external datetime library
computes with). -/
def days_from_civil (y m d : Int) : Int :=
  let y2 := if m ≤ 2 then y - 1 else y
  let era := y2.fdiv 400
  let yoe := y2 - era * 400
  let mp := (m + 9) % 12
  let doy := (153 * mp + 2).fdiv 5 + d - 1
  let doe := yoe * 365 + yoe.fdiv 4 - yoe.fdiv 100 + doy
  era * 146097 + doe - 719468

/-- Civil date (year, month, day) of a day count since 1970-01-01; inverse
direction of `days_from_civil`. -/
def civil_from_days (z : Int) : Int × Int × Int :=
  let z2 := z + 719468
  let era := z2.fdiv 146097
  let doe := z2 - era * 146097
  let yoe := (doe - doe.fdiv 1460 + doe.fdiv 36524 - doe.fdiv 146096).fdiv 365
  let y := yoe + era * 400
  let doy := doe - (365 * yoe + yoe.fdiv 4 - yoe.fdiv 100)
  let mp := (5 * doy + 2).fdiv 153
  let d := doy - (153 * mp + 2).fdiv 5 + 1
  let m := mp + (if mp < 10 then 3 else -9)
  ((if m ≤ 2 then y + 1 else y), m, d)

/-- Model of the external dateutil calendar addition
`datetime + relativedelta`: on the wall-clock fields of the datetime, add the
year and month components (carrying months into years), clamp the day of
month to the target month's length, then add the fixed-duration components
(days/hours/minutes/seconds/microseconds); the tzinfo is preserved. -/
def dtAddRd (dt : DTime) (rd : Relativedelta) : DTime :=
  let off : Int := (dt.tz.getD 0) * 1000000
  let wall := dt.val + off
  let days := wall.fdiv 86400000000
  let rem := wall.emod 86400000000
  let c := civil_from_days days
  let y0 := c.1 + rd.years
  let month0 := c.2.1 + rd.months - 1
  let y1 := y0 + month0.fdiv 12
  let m1 := month0.emod 12 + 1
  let d1 := min c.2.2 (daysInMonth y1 m1)
  let shift := (((rd.days * 24 + rd.hours) * 60 + rd.minutes) * 60 + rd.seconds) * 1000000 +
    rd.microseconds
  { val := days_from_civil y1 m1 d1 * 86400000000 + rem + shift - off, tz := dt.tz }

/-- Python `dt + step` for the `Union[timedelta, relativedelta]` argument. -/
def dtAddDelta (d : DTime) : Delta → DTime
  | .td t => dtAddTd d t
  | .rd r => dtAddRd d r

/-- Python `dt - step`: plain subtraction for a timedelta; for a relativedelta
Python evaluates `(-step) + dt` (its `__rsub__` negates the components). -/
def dtSubDelta (d : DTime) : Delta → DTime
  | .td t => dtSubTd d t
  | .rd r => dtAddRd d (rdNeg r)

/-- Model of `str` on either branch of the step union (used in the error
messages that cite the offending step). -/
def deltaStr : Delta → String
  | .td t => tdStr t
  | .rd r =>
      "relativedelta(years=" ++ toString r.years ++ ", months=" ++ toString r.months ++
      ", days=" ++ toString r.days ++ ", hours=" ++ toString r.hours ++
      ", minutes=" ++ toString r.minutes ++ ", seconds=" ++ toString r.seconds ++
      ", microseconds=" ++ toString r.microseconds ++ ")"

def DEFAULT_TIME_FORMAT : String := "%Y-%m-%dT%H:%M:%S%z"

/-- The `DateTimeRange` object state.  The format fields are `Option String`
because Python lets client code assign `None` to the attributes; the
constructor itself always stores a non-empty string (see `fmtOr`). -/
structure DateTimeRange where
  start_datetime : Option DTime
  end_datetime : Option DTime
  start_time_format : Option String
  end_time_format : Option String
  is_output_elapse : Bool
  separator : String
deriving DecidableEq, Repr

def NOT_A_TIME_STR : String := "NaT"

/-- Python `x or DEFAULT_TIME_FORMAT` in `__init__`: both `None` and the empty
string are falsy and replaced by the default. -/
def fmtOr (f : Option String) : String :=
  match f with
  | none => DEFAULT_TIME_FORMAT
  | some s => if s = "" then DEFAULT_TIME_FORMAT else s

/-- The `DateTimeRange(start, end, start_time_format, end_time_format)`
constructor (endpoints already normalized): stores the endpoints, applies the
format defaults, and resets `is_output_elapse` and `separator`. -/
def DateTimeRange.make (s e : Option DTime) (sf ef : Option String) : DateTimeRange :=
  { start_datetime := s, end_datetime := e,
    start_time_format := some (fmtOr sf), end_time_format := some (fmtOr ef),
    is_output_elapse := false, separator := " - " }

/-- `is_set`: both endpoints present. -/
def DateTimeRange.is_set (r : DateTimeRange) : Bool :=
  r.start_datetime.isSome && r.end_datetime.isSome

/-- `validate_time_inversion`: bare `TypeError` when either endpoint is absent;
`ValueError` on tzinfo mismatch; `ValueError` carrying both endpoint values on
`start > end`; silent success otherwise.  The checks run in this order, so the
order comparison only ever happens between same-tzinfo (hence comparable)
endpoints. -/
def DateTimeRange.validate_time_inversion (r : DateTimeRange) : Except PyErr Unit :=
  match r.start_datetime, r.end_datetime with
  | some s, some e =>
      if s.tz ≠ e.tz then
        .error (.valueError ("timezone mismatch: start=" ++ tzStr s.tz ++ ", end=" ++ tzStr e.tz))
      else if s.val > e.val then
        .error (.valueError ("time inversion found: " ++ dtStr s ++ " > " ++ dtStr e))
      else .ok ()
  | _, _ => .error (.typeError "")

/-- `is_valid_timerange`: `validate_time_inversion` caught and converted to a
boolean, then `is_set` (always true at that point). -/
def DateTimeRange.is_valid_timerange (r : DateTimeRange) : Bool :=
  match r.validate_time_inversion with
  | .error _ => false
  | .ok _ => r.is_set

/-- `__eq__`: endpointwise datetime equality; everything else is ignored. -/
def DateTimeRange.eqRange (a b : DateTimeRange) : Bool :=
  (match a.start_datetime, b.start_datetime with
   | none, none => true
   | some x, some y => dtEq x y
   | _, _ => false) &&
  (match a.end_datetime, b.end_datetime with
   | none, none => true
   | some x, some y => dtEq x y
   | _, _ => false)

/-- `__contains__` with a scalar datetime probe: validates `self`, then
evaluates the chained `self.start <= x <= self.end` (the second comparison only
when the first holds, as in Python). -/
def DateTimeRange.containsDt (r : DateTimeRange) (x : DTime) : Except PyErr Bool := do
  r.validate_time_inversion
  match r.start_datetime, r.end_datetime with
  | some s, some e => do
      let b ← dtLe s x
      if b then dtLe x e else pure false
  | _, _ => .error (.typeError "")

/-- `__add__` (taking the `Union[timedelta, relativedelta]` shift): `TypeError`
when both endpoints are absent; otherwise shifts each present endpoint and
builds `DateTimeRange(start, end)` — with no format arguments, so the result
carries the DEFAULT formats. -/
def DateTimeRange.addShift (r : DateTimeRange) (other : Delta) : Except PyErr DateTimeRange :=
  if r.start_datetime = none ∧ r.end_datetime = none then
    .error (.typeError "range is not set")
  else
    .ok (DateTimeRange.make (r.start_datetime.map (dtAddDelta · other))
          (r.end_datetime.map (dtAddDelta · other)) none none)

/-- `__sub__`: like `__add__` with the shift negated. -/
def DateTimeRange.subShift (r : DateTimeRange) (other : Delta) : Except PyErr DateTimeRange :=
  if r.start_datetime = none ∧ r.end_datetime = none then
    .error (.typeError "range is not set")
  else
    .ok (DateTimeRange.make (r.start_datetime.map (dtSubDelta · other))
          (r.end_datetime.map (dtSubDelta · other)) none none)

/-- The `timedelta` property: `TypeError` naming the missing endpoint, else
`end - start` (which itself raises `TypeError` on naive/aware mixing). -/
def DateTimeRange.timedeltaProp (r : DateTimeRange) : Except PyErr Timedelta :=
  match r.start_datetime with
  | none => .error (.typeError "Must set start_datetime")
  | some s =>
    match r.end_datetime with
    | none => .error (.typeError "Must set end_datetime")
    | some e => dtSub e s

/-- `get_start_time_str`: `NaT` for an absent endpoint; for a present endpoint
a `None` format raises `TypeError` (Python's `strftime(None)`; the source's
`except AttributeError` does not catch it), else the formatted string. -/
def DateTimeRange.get_start_time_str (r : DateTimeRange) : Except PyErr String :=
  match r.start_datetime with
  | none => .ok NOT_A_TIME_STR
  | some d =>
    match r.start_time_format with
    | none => .error (.typeError "strftime() argument 1 must be str, not None")
    | some f => .ok (strftime d f)

/-- `get_end_time_str`: symmetric to `get_start_time_str`. -/
def DateTimeRange.get_end_time_str (r : DateTimeRange) : Except PyErr String :=
  match r.end_datetime with
  | none => .ok NOT_A_TIME_STR
  | some d =>
    match r.end_time_format with
    | none => .error (.typeError "strftime() argument 1 must be str, not None")
    | some f => .ok (strftime d f)

/-- `__repr__`: computes the elapsed suffix first (`end - start`, which can
raise on naive/aware mixing), then joins the two endpoint strings with the
separator. -/
def DateTimeRange.reprStr (r : DateTimeRange) : Except PyErr String := do
  let suffix ←
    if r.is_output_elapse ∧ r.end_datetime.isSome ∧ r.start_datetime.isSome then do
      match r.end_datetime, r.start_datetime with
      | some e, some s => do
          let d ← dtSub e s
          pure (" (" ++ tdStr d ++ ")")
      | _, _ => pure ""
    else pure ""
  let ss ← r.get_start_time_str
  let es ← r.get_end_time_str
  pure (ss ++ r.separator ++ es ++ suffix)

/-- `intersection`: validates both operands, probes `x.start in self` and
`self.start in x` (both are evaluated, as Python builds the list for `any`),
takes `max(starts)` / `min(ends)` on intersection and absent bounds otherwise,
then applies the optional minimum-duration threshold, and constructs the fresh
result with `self`'s format strings. -/
def DateTimeRange.intersection (self x : DateTimeRange) (intersection_threshold : Option Delta) :
    Except PyErr DateTimeRange := do
  self.validate_time_inversion
  x.validate_time_inversion
  match self.start_datetime, self.end_datetime, x.start_datetime, x.end_datetime with
  | some ss, some se, some xs, some xe => do
      let c1 ← self.containsDt xs
      let c2 ← x.containsDt ss
      let bounds ← do
        if c1 || c2 then do
          let a ← dtMax ss xs
          let b ← dtMin se xe
          pure (some a, some b)
        else
          pure ((none : Option DTime), (none : Option DTime))
      match intersection_threshold with
      | none =>
          pure (DateTimeRange.make bounds.1 bounds.2 self.start_time_format self.end_time_format)
      | some thr =>
          match bounds.1, bounds.2 with
          | some a, some b => do
              let delta ← dtSub b a
              if compare_relativedelta delta.toNormRd thr.toNormRd < 0 then
                pure (DateTimeRange.make none none self.start_time_format self.end_time_format)
              else
                pure (DateTimeRange.make (some a) (some b) self.start_time_format self.end_time_format)
          | _, _ =>
              pure (DateTimeRange.make none none self.start_time_format self.end_time_format)
  | _, _, _, _ => .error (.typeError "")

/-- `subtract`: the five-case cascade over `overlap = self.intersection(x)`. -/
def DateTimeRange.subtract (self x : DateTimeRange) : Except PyErr (List DateTimeRange) := do
  let overlap ← self.intersection x none
  if !overlap.is_set then
    pure [DateTimeRange.make self.start_datetime self.end_datetime
            self.start_time_format self.end_time_format]
  else do
    let td ← overlap.timedeltaProp
    if td.usec ≤ 0 then
      pure [DateTimeRange.make self.start_datetime self.end_datetime
              self.start_time_format self.end_time_format]
    else if (match overlap.start_datetime, self.start_datetime with
             | some a, some b => dtEq a b
             | none, none => true
             | _, _ => false) &&
            (match overlap.end_datetime, self.end_datetime with
             | some a, some b => dtEq a b
             | none, none => true
             | _, _ => false) then
      pure []
    else if (match overlap.start_datetime, self.start_datetime with
             | some a, some b => dtEq a b
             | none, none => true
             | _, _ => false) then
      pure [DateTimeRange.make overlap.end_datetime self.end_datetime
              self.start_time_format self.end_time_format]
    else if (match overlap.end_datetime, self.end_datetime with
             | some a, some b => dtEq a b
             | none, none => true
             | _, _ => false) then
      pure [DateTimeRange.make self.start_datetime overlap.start_datetime
              self.start_time_format self.end_time_format]
    else
      pure [DateTimeRange.make self.start_datetime overlap.start_datetime
              self.start_time_format self.end_time_format,
            DateTimeRange.make overlap.end_datetime self.end_datetime
              self.start_time_format self.end_time_format]

/-- `encompass`: validates both operands and spans `min(starts)`..`max(ends)`,
inheriting `self`'s format strings. -/
def DateTimeRange.encompass (self x : DateTimeRange) : Except PyErr DateTimeRange := do
  self.validate_time_inversion
  x.validate_time_inversion
  match self.start_datetime, self.end_datetime, x.start_datetime, x.end_datetime with
  | some ss, some se, some xs, some xe => do
      let a ← dtMin ss xs
      let b ← dtMax se xe
      pure (DateTimeRange.make (some a) (some b) self.start_time_format self.end_time_format)
  | _, _, _, _ => .error (.typeError "")

/-- `truncate(percentage)` (mutating in the source; modelled as returning the
new state): validate, reject a negative percentage, return unchanged for zero,
else move start forward and end backward by
`timedelta // 100 * int(percentage / 2)`. -/
def DateTimeRange.truncate (r : DateTimeRange) (percentage : ℚ) : Except PyErr DateTimeRange := do
  r.validate_time_inversion
  if percentage < 0 then
    .error (.valueError ("discard_percent must be greater or equal to zero: " ++ toString percentage))
  else if percentage = 0 then
    pure r
  else do
    let td ← r.timedeltaProp
    let discard : Timedelta := ⟨td.usec.fdiv 100 * ⌊percentage / 2⌋⟩
    pure { r with
            start_datetime := r.start_datetime.map (dtAddTd · discard),
            end_datetime := r.end_datetime.map (dtSubTd · discard) }

/-- The forward `while current <= end: yield current; current += step` loop of
`range`, with explicit fuel; `none` means the fuel ran out before the loop
finished (so for every fuel value it means the Python loop is still running). -/
def rangeLoopFwd : Nat → DTime → DTime → Delta → Option (Except PyErr (List DTime))
  | 0, _, _, _ => none
  | Nat.succ n, cur, fin, u =>
    match dtLe cur fin with
    | .error e => some (.error e)
    | .ok true => (rangeLoopFwd n (dtAddDelta cur u) fin u).map (Except.map (List.cons cur))
    | .ok false => some (.ok [])

/-- The decreasing `while current >= end` loop of `range` for ranges classified
as inverted. -/
def rangeLoopInv : Nat → DTime → DTime → Delta → Option (Except PyErr (List DTime))
  | 0, _, _, _ => none
  | Nat.succ n, cur, fin, u =>
    match dtGe cur fin with
    | .error e => some (.error e)
    | .ok true => (rangeLoopInv n (dtAddDelta cur u) fin u).map (Except.map (List.cons cur))
    | .ok false => some (.ok [])

/-- `range(step)` (run to completion with the given fuel; the source is a
generator, so this is the result of `list(r.range(step))`): reject a step whose
normalized comparison with zero is 0; classify the range as inverted when
`validate_time_inversion` raises any `ValueError` (a `TypeError` propagates);
require the step's comparison sign to match the classification; then run the
corresponding loop from `start`. -/
def DateTimeRange.rangeRun (r : DateTimeRange) (step : Delta) (fuel : Nat) :
    Option (Except PyErr (List DTime)) :=
  let cmp := compare_delta step 0
  if cmp = 0 then some (.error (.valueError "step must be not zero"))
  else
    match r.validate_time_inversion with
    | .error (.typeError m) => some (.error (.typeError m))
    | .error (.valueError _) =>
        match r.start_datetime, r.end_datetime with
        | some s, some e =>
            if cmp > 0 then
              some (.error (.valueError ("invalid step: expect less than 0, actual=" ++
                deltaStr step)))
            else rangeLoopInv fuel s e step
        | _, _ => some (.error (.typeError ""))
    | .ok _ =>
        match r.start_datetime, r.end_datetime with
        | some s, some e =>
            if cmp < 0 then
              some (.error (.valueError ("invalid step: expect greater than 0, actual=" ++
                deltaStr step)))
            else rangeLoopFwd fuel s e step
        | _, _ => some (.error (.typeError ""))

@[simp]
theorem pyBind_ok {α β : Type} (a : α) (f : α → Except PyErr β) :
    (Except.ok a >>= f) = f a := rfl

@[simp]
theorem pyBind_err {α β : Type} (e : PyErr) (f : α → Except PyErr β) :
    ((Except.error e : Except PyErr α) >>= f) = Except.error e := rfl

/-- Successful validation characterized: both endpoints present, equal tzinfo,
start not after end. -/
theorem validate_ok_iff (r : DateTimeRange) :
    r.validate_time_inversion = .ok () ↔
      ∃ s e : DTime, r.start_datetime = some s ∧ r.end_datetime = some e ∧
        s.tz = e.tz ∧ s.val ≤ e.val := by
  rcases hs : r.start_datetime with _ | s <;> rcases he : r.end_datetime with _ | e
  · simp [DateTimeRange.validate_time_inversion, hs, he]
  · simp [DateTimeRange.validate_time_inversion, hs, he]
  · simp [DateTimeRange.validate_time_inversion, hs, he]
  · by_cases htz : s.tz = e.tz
    · by_cases hgt : s.val > e.val
      · simp only [DateTimeRange.validate_time_inversion, hs, he, if_neg (not_not.mpr htz),
          if_pos hgt]
        constructor
        · intro h
          cases h
        · rintro ⟨s2, e2, hs2, he2, -, hle2⟩
          obtain rfl : s2 = s := (Option.some.inj hs2).symm
          obtain rfl : e2 = e := (Option.some.inj he2).symm
          omega
      · simp only [DateTimeRange.validate_time_inversion, hs, he, if_neg (not_not.mpr htz),
          if_neg hgt]
        constructor
        · intro _
          exact ⟨s, e, rfl, rfl, htz, by omega⟩
        · intro _
          trivial
    · simp only [DateTimeRange.validate_time_inversion, hs, he, if_pos htz]
      constructor
      · intro h
        cases h
      · rintro ⟨s2, e2, hs2, he2, htz2, -⟩
        obtain rfl : s2 = s := (Option.some.inj hs2).symm
        obtain rfl : e2 = e := (Option.some.inj he2).symm
        exact absurd htz2 htz

/-- Equal tzinfo gives equal awareness. -/
theorem aware_of_tz_eq {s e : DTime} (h : s.tz = e.tz) : s.aware = e.aware := by
  simp [DTime.aware, h]

/-- Scalar containment evaluated on a validated range and an
awareness-compatible probe: the closed-interval test on values. -/
theorem containsDt_eval (r : DateTimeRange) (s e x : DTime)
    (hval : r.validate_time_inversion = .ok ())
    (hs : r.start_datetime = some s) (he : r.end_datetime = some e)
    (hx : x.aware = s.aware) :
    r.containsDt x = .ok (decide (s.val ≤ x.val ∧ x.val ≤ e.val)) := by
  have haw : s.aware = e.aware := by
    obtain ⟨s2, e2, hs2, he2, htz, -⟩ := (validate_ok_iff r).mp hval
    obtain rfl : s = s2 := by rw [hs] at hs2; exact Option.some.inj hs2
    obtain rfl : e = e2 := by rw [he] at he2; exact Option.some.inj he2
    exact aware_of_tz_eq htz
  unfold DateTimeRange.containsDt
  rw [hval]
  simp only [pyBind_ok, hs, he]
  by_cases h1 : s.val ≤ x.val
  · simp [dtLe, hx.symm, h1, hx ▸ haw]
  · simp [dtLe, hx.symm, h1]
    rfl

/-- Claim C5: `validate_time_inversion` raises a bare `TypeError` whenever an
endpoint is absent; for set ranges it raises the timezone-mismatch
`ValueError` when the tzinfos differ, the inversion `ValueError` carrying both
endpoint values when (the tzinfos agree and) start > end, and succeeds for
forward or exactly-equal ranges; `is_valid_timerange` is true exactly when
`validate_time_inversion` succeeds and, being a total boolean function, never
raises. -/
theorem C5_validate_is_valid :
    (∀ r : DateTimeRange, (r.start_datetime = none ∨ r.end_datetime = none) →
        r.validate_time_inversion = .error (.typeError "")) ∧
    (∀ r : DateTimeRange, ∀ s e : DTime,
        r.start_datetime = some s → r.end_datetime = some e →
        ((s.tz ≠ e.tz → r.validate_time_inversion =
            .error (.valueError
              ("timezone mismatch: start=" ++ tzStr s.tz ++ ", end=" ++ tzStr e.tz))) ∧
         (s.tz = e.tz → e.val < s.val → r.validate_time_inversion =
            .error (.valueError ("time inversion found: " ++ dtStr s ++ " > " ++ dtStr e))) ∧
         (s.tz = e.tz → s.val ≤ e.val → r.validate_time_inversion = .ok ()))) ∧
    (∀ r : DateTimeRange, r.is_valid_timerange = true ↔ r.validate_time_inversion = .ok ()) := by
  refine ⟨?_, ?_, ?_⟩
  · intro r h
    rcases hs : r.start_datetime with _ | s <;> rcases he : r.end_datetime with _ | e <;>
      simp [DateTimeRange.validate_time_inversion, hs, he] at *
  · intro r s e hs he
    refine ⟨?_, ?_, ?_⟩
    · intro htz
      simp [DateTimeRange.validate_time_inversion, hs, he, htz]
    · intro htz hlt
      simp [DateTimeRange.validate_time_inversion, hs, he, htz, hlt]
    · intro htz hle
      simp [DateTimeRange.validate_time_inversion, hs, he, htz, not_lt.mpr hle]
  · intro r
    unfold DateTimeRange.is_valid_timerange
    rcases h : r.validate_time_inversion with e | u
    · simp
    · rcases hs : r.start_datetime with _ | s <;> rcases he : r.end_datetime with _ | e
      · exact absurd h (by simp [DateTimeRange.validate_time_inversion, hs, he])
      · exact absurd h (by simp [DateTimeRange.validate_time_inversion, hs, he])
      · exact absurd h (by simp [DateTimeRange.validate_time_inversion, hs, he])
      · simp [DateTimeRange.is_set, hs, he]

/-- Claim C5 witness: the theorem instantiated at concrete unset, inverted,
timezone-mismatched and valid ranges. -/
theorem C5_validate_is_valid_witness :
    (DateTimeRange.make none (some ⟨0, none⟩) none none).validate_time_inversion =
      .error (.typeError "") ∧
    (DateTimeRange.make (some ⟨5, none⟩) (some ⟨3, none⟩) none none).validate_time_inversion =
      .error (.valueError ("time inversion found: " ++ dtStr ⟨5, none⟩ ++ " > " ++ dtStr ⟨3, none⟩)) ∧
    (DateTimeRange.make (some ⟨0, some 0⟩) (some ⟨1, some 3600⟩) none none).validate_time_inversion =
      .error (.valueError ("timezone mismatch: start=" ++ tzStr (some 0) ++ ", end=" ++ tzStr (some 3600))) ∧
    (DateTimeRange.make (some ⟨0, none⟩) (some ⟨3, none⟩) none none).is_valid_timerange = true := by
  obtain ⟨h1, h2, h3⟩ := C5_validate_is_valid
  refine ⟨h1 _ (by decide), ?_, ?_, ?_⟩
  · exact (h2 _ ⟨5, none⟩ ⟨3, none⟩ (by decide) (by decide)).2.1 (by decide) (by decide)
  · exact (h2 _ ⟨0, some 0⟩ ⟨1, some 3600⟩ (by decide) (by decide)).1 (by decide)
  · exact (h3 _).mpr ((h2 _ ⟨0, none⟩ ⟨3, none⟩ (by decide) (by decide)).2.2 (by decide) (by decide))

/-- Claim C7 counterexample: a range with both endpoints present (one naive,
one aware) on which the `timedelta` property nevertheless raises a
`TypeError` (Python cannot subtract naive and aware datetimes), refuting
"raises a type error iff at least one endpoint is absent". -/
theorem C7_counterexample :
    ({ start_datetime := some ⟨0, none⟩, end_datetime := some ⟨10, some 0⟩,
       start_time_format := none, end_time_format := none,
       is_output_elapse := false, separator := " - " } : DateTimeRange).is_set = true ∧
    ({ start_datetime := some ⟨0, none⟩, end_datetime := some ⟨10, some 0⟩,
       start_time_format := none, end_time_format := none,
       is_output_elapse := false, separator := " - " } : DateTimeRange).timedeltaProp =
      .error (.typeError naiveAwareMsg) := by
  constructor <;> rfl

/-- Claim C7 (amended): the `timedelta` property raises a type error iff at
least one endpoint is absent or the two present endpoints differ in
timezone-awareness; for every set range whose endpoints agree in awareness —
including inverted ones — it returns exactly `end - start`, a possibly negative
duration; in particular the inverted 10-minute range yields -10 minutes
(-600000000 microseconds) while `validate_time_inversion` on it raises a
`ValueError`. -/
theorem C7_timedelta :
    (∀ r : DateTimeRange,
      ((∃ m, r.timedeltaProp = .error (.typeError m)) ↔
        (r.start_datetime = none ∨ r.end_datetime = none ∨
         ∃ s e, r.start_datetime = some s ∧ r.end_datetime = some e ∧ s.aware ≠ e.aware))) ∧
    (∀ r : DateTimeRange, ∀ s e : DTime,
      r.start_datetime = some s → r.end_datetime = some e → s.aware = e.aware →
        r.timedeltaProp = .ok ⟨e.val - s.val⟩) ∧
    ((DateTimeRange.make (some ⟨600000000, none⟩) (some ⟨0, none⟩) none none).timedeltaProp =
       .ok ⟨-600000000⟩ ∧
     ∃ m, (DateTimeRange.make (some ⟨600000000, none⟩)
             (some ⟨0, none⟩) none none).validate_time_inversion = .error (.valueError m)) := by
  refine ⟨?_, ?_, by rfl, _, by rfl⟩
  · intro r
    rcases hs : r.start_datetime with _ | s <;> rcases he : r.end_datetime with _ | e
    · simp [DateTimeRange.timedeltaProp, hs, he]
    · simp [DateTimeRange.timedeltaProp, hs, he]
    · simp [DateTimeRange.timedeltaProp, hs, he]
    · by_cases ha : s.aware = e.aware
      · have hmain : r.timedeltaProp = .ok ⟨e.val - s.val⟩ := by
          simp [DateTimeRange.timedeltaProp, hs, he, dtSub, ha]
        constructor
        · rintro ⟨m, hm⟩
          rw [hmain] at hm
          cases hm
        · rintro (h | h | ⟨s2, e2, hs2, he2, hne2⟩)
          · cases h
          · cases h
          · obtain rfl : s2 = s := (Option.some.inj hs2).symm
            obtain rfl : e2 = e := (Option.some.inj he2).symm
            exact absurd ha hne2
      · constructor
        · intro _
          exact Or.inr (Or.inr ⟨s, e, rfl, rfl, ha⟩)
        · intro _
          refine ⟨naiveAwareMsg, ?_⟩
          have hea : ¬e.aware = s.aware := fun h => ha h.symm
          simp [DateTimeRange.timedeltaProp, hs, he, dtSub, hea]
  · intro r s e hs he ha
    simp [DateTimeRange.timedeltaProp, hs, he, dtSub, ha]

/-- Claim C7 witness: the amended theorem instantiated at a mixed-awareness
set range (type error), at a set naive range (exact difference), and the
concrete inverted instance. -/
theorem C7_timedelta_witness :
    (∃ m, ({ start_datetime := some ⟨0, none⟩, end_datetime := some ⟨10, some 0⟩,
             start_time_format := none, end_time_format := none,
             is_output_elapse := false, separator := " - " } : DateTimeRange).timedeltaProp =
            .error (.typeError m)) ∧
    (DateTimeRange.make (some ⟨3, none⟩) (some ⟨10, none⟩) none none).timedeltaProp = .ok ⟨7⟩ := by
  obtain ⟨h1, h2, _⟩ := C7_timedelta
  constructor
  · exact (h1 _).mpr (Or.inr (Or.inr ⟨⟨0, none⟩, ⟨10, some 0⟩, rfl, rfl, by decide⟩))
  · exact h2 _ ⟨3, none⟩ ⟨10, none⟩ (by decide) (by decide) (by decide)

/-- Claim C6 counterexample: shifting a range whose format strings are not the
default produces a result carrying the DEFAULT format strings, not the
source's, refuting "carries the same format strings as the source range"
(`__add__` constructs `DateTimeRange(start, end)` without format arguments). -/
theorem C6_counterexample :
    (({ start_datetime := some ⟨0, none⟩, end_datetime := some ⟨10, none⟩,
        start_time_format := some "%H", end_time_format := some "%H",
        is_output_elapse := false, separator := " - " } : DateTimeRange).addShift
        (Delta.td ⟨5⟩)).map (fun res => res.start_time_format) = .ok (some DEFAULT_TIME_FORMAT) ∧
    some DEFAULT_TIME_FORMAT ≠ some "%H" := by
  constructor
  · rfl
  · decide

/-- Claim C6 (amended): for every duration or calendar-relative offset `d`, the
non-mutating shifts `range + d` and `range - d` raise a type error iff both
endpoints are absent, and otherwise return a new range whose present endpoints
are each shifted by `d` (respectively `-d`: plain subtraction for a duration,
addition of the component-wise negation for a calendar offset), whose absent
endpoints remain absent, and which carries the DEFAULT format strings (the
source's formats are not forwarded); the source range is not touched (the
operations are pure constructions of a fresh value). -/
theorem C6_shift :
    ∀ (r : DateTimeRange) (d : Delta),
      ((r.addShift d = .error (.typeError "range is not set")) ↔
         (r.start_datetime = none ∧ r.end_datetime = none)) ∧
      ((r.subShift d = .error (.typeError "range is not set")) ↔
         (r.start_datetime = none ∧ r.end_datetime = none)) ∧
      (¬(r.start_datetime = none ∧ r.end_datetime = none) →
        ∃ ra rs, r.addShift d = .ok ra ∧ r.subShift d = .ok rs ∧
          ra.start_datetime = r.start_datetime.map (fun x =>
            match d with
            | .td u => ⟨x.val + u.usec, x.tz⟩
            | .rd ρ => dtAddRd x ρ) ∧
          ra.end_datetime = r.end_datetime.map (fun x =>
            match d with
            | .td u => ⟨x.val + u.usec, x.tz⟩
            | .rd ρ => dtAddRd x ρ) ∧
          rs.start_datetime = r.start_datetime.map (fun x =>
            match d with
            | .td u => ⟨x.val - u.usec, x.tz⟩
            | .rd ρ => dtAddRd x (rdNeg ρ)) ∧
          rs.end_datetime = r.end_datetime.map (fun x =>
            match d with
            | .td u => ⟨x.val - u.usec, x.tz⟩
            | .rd ρ => dtAddRd x (rdNeg ρ)) ∧
          ra.start_time_format = some DEFAULT_TIME_FORMAT ∧
          ra.end_time_format = some DEFAULT_TIME_FORMAT ∧
          rs.start_time_format = some DEFAULT_TIME_FORMAT ∧
          rs.end_time_format = some DEFAULT_TIME_FORMAT) := by
  intro r d
  by_cases h : r.start_datetime = none ∧ r.end_datetime = none
  · refine ⟨?_, ?_, ?_⟩
    · simp [DateTimeRange.addShift, h]
    · simp [DateTimeRange.subShift, h]
    · intro hc
      exact absurd h hc
  · refine ⟨?_, ?_, ?_⟩
    · simp only [DateTimeRange.addShift, if_neg h]
      constructor
      · intro hx
        cases hx
      · intro hx
        exact absurd hx h
    · simp only [DateTimeRange.subShift, if_neg h]
      constructor
      · intro hx
        cases hx
      · intro hx
        exact absurd hx h
    · intro _
      refine ⟨DateTimeRange.make (r.start_datetime.map (dtAddDelta · d))
                (r.end_datetime.map (dtAddDelta · d)) none none,
              DateTimeRange.make (r.start_datetime.map (dtSubDelta · d))
                (r.end_datetime.map (dtSubDelta · d)) none none,
              ?_, ?_, ?_, ?_, ?_, ?_, rfl, rfl, rfl, rfl⟩
      · simp [DateTimeRange.addShift, if_neg h]
      · simp [DateTimeRange.subShift, if_neg h]
      · rcases d with u | ρ <;> cases r.start_datetime <;>
          simp [DateTimeRange.make, dtAddDelta, dtAddTd]
      · rcases d with u | ρ <;> cases r.end_datetime <;>
          simp [DateTimeRange.make, dtAddDelta, dtAddTd]
      · rcases d with u | ρ <;> cases r.start_datetime <;>
          simp [DateTimeRange.make, dtSubDelta, dtSubTd]
      · rcases d with u | ρ <;> cases r.end_datetime <;>
          simp [DateTimeRange.make, dtSubDelta, dtSubTd]

/-- Claim C6 witness: the amended theorem instantiated at an unset range (error
case), at a range with only the end endpoint present under a duration shift,
and at a set range under a calendar-relative shift of one month (forward: the
wall date 1970-01-01 moves to 1970-02-01; backward: to 1969-12-01). -/
theorem C6_shift_witness :
    (({ start_datetime := none, end_datetime := none,
        start_time_format := none, end_time_format := none,
        is_output_elapse := false, separator := " - " } : DateTimeRange).addShift
        (Delta.td ⟨7⟩) = .error (.typeError "range is not set")) ∧
    (∃ ra rs,
      ({ start_datetime := none, end_datetime := some ⟨10, none⟩,
         start_time_format := none, end_time_format := none,
         is_output_elapse := false, separator := " - " } : DateTimeRange).addShift
           (Delta.td ⟨7⟩) = .ok ra ∧
      ({ start_datetime := none, end_datetime := some ⟨10, none⟩,
         start_time_format := none, end_time_format := none,
         is_output_elapse := false, separator := " - " } : DateTimeRange).subShift
           (Delta.td ⟨7⟩) = .ok rs ∧
      ra.start_datetime = none ∧ ra.end_datetime = some ⟨17, none⟩ ∧
      rs.start_datetime = none ∧ rs.end_datetime = some ⟨3, none⟩) ∧
    (∃ ra rs,
      ({ start_datetime := some ⟨0, none⟩, end_datetime := some ⟨10, none⟩,
         start_time_format := none, end_time_format := none,
         is_output_elapse := false, separator := " - " } : DateTimeRange).addShift
           (Delta.rd ⟨0, 1, 0, 0, 0, 0, 0⟩) = .ok ra ∧
      ({ start_datetime := some ⟨0, none⟩, end_datetime := some ⟨10, none⟩,
         start_time_format := none, end_time_format := none,
         is_output_elapse := false, separator := " - " } : DateTimeRange).subShift
           (Delta.rd ⟨0, 1, 0, 0, 0, 0, 0⟩) = .ok rs ∧
      ra.start_datetime = some ⟨2678400000000, none⟩ ∧
      ra.end_datetime = some ⟨2678400000010, none⟩ ∧
      rs.start_datetime = some ⟨-2678400000000, none⟩ ∧
      rs.end_datetime = some ⟨-2678399999990, none⟩ ∧
      ra.start_time_format = some DEFAULT_TIME_FORMAT) := by
  refine ⟨?_, ?_, ?_⟩
  · exact ((C6_shift _ (Delta.td ⟨7⟩)).1).mpr ⟨rfl, rfl⟩
  · obtain ⟨ra, rs, h1, h2, h3, h4, h5, h6, -⟩ :=
      (C6_shift { start_datetime := none, end_datetime := some ⟨10, none⟩,
                  start_time_format := none, end_time_format := none,
                  is_output_elapse := false, separator := " - " } (Delta.td ⟨7⟩)).2.2 (by simp)
    exact ⟨ra, rs, h1, h2, by simpa using h3, by simpa using h4, by simpa using h5,
      by simpa using h6⟩
  · obtain ⟨ra, rs, h1, h2, h3, h4, h5, h6, h7, -⟩ :=
      (C6_shift { start_datetime := some ⟨0, none⟩, end_datetime := some ⟨10, none⟩,
                  start_time_format := none, end_time_format := none,
                  is_output_elapse := false, separator := " - " }
        (Delta.rd ⟨0, 1, 0, 0, 0, 0, 0⟩)).2.2 (by simp)
    refine ⟨ra, rs, h1, h2, ?_, ?_, ?_, ?_, h7⟩
    · rw [h3]; rfl
    · rw [h4]; rfl
    · rw [h5]; rfl
    · rw [h6]; rfl

/-- Claim C8 counterexample: a set range with one naive and one aware endpoint
and `is_output_elapse` enabled makes `__repr__` raise a `TypeError` (the
elapsed suffix computes `end - start`), even though both format strings are
present and valid — refuting the claim's "appends the duration ... iff"
rendering description. -/
theorem C8_counterexample :
    ({ start_datetime := some ⟨0, none⟩, end_datetime := some ⟨10, some 0⟩,
       start_time_format := some DEFAULT_TIME_FORMAT, end_time_format := some DEFAULT_TIME_FORMAT,
       is_output_elapse := true, separator := " - " } : DateTimeRange).reprStr =
      .error (.typeError naiveAwareMsg) := by
  rfl

/-- Claim C8 (amended): string rendering joins the formatted start and end with
the separator, rendering the literal `NaT` token for every absent endpoint,
and appends the duration in parentheses iff `is_output_elapse` is enabled and
both endpoints are present (provided that, in that case, the endpoints agree
in timezone-awareness — otherwise the duration computation itself raises);
when a configured format string is absent (`None`) while its endpoint is
present, rendering fails with a type error instead of substituting `NaT`. -/
theorem C8_repr :
    (∀ r : DateTimeRange, ∀ sf ef : String,
      r.start_time_format = some sf → r.end_time_format = some ef →
      (¬(r.is_output_elapse = true ∧ r.start_datetime.isSome ∧ r.end_datetime.isSome) →
        r.reprStr = .ok
          ((match r.start_datetime with
            | none => NOT_A_TIME_STR
            | some d => strftime d sf) ++ r.separator ++
           (match r.end_datetime with
            | none => NOT_A_TIME_STR
            | some d => strftime d ef))) ∧
      (∀ s e : DTime, r.is_output_elapse = true →
        r.start_datetime = some s → r.end_datetime = some e → s.aware = e.aware →
        r.reprStr = .ok
          (strftime s sf ++ r.separator ++ strftime e ef ++
           (" (" ++ tdStr ⟨e.val - s.val⟩ ++ ")")))) ∧
    (∀ r : DateTimeRange, ∀ s : DTime,
      r.start_datetime = some s → r.start_time_format = none →
        ∃ m, r.reprStr = .error (.typeError m)) ∧
    (∀ r : DateTimeRange, ∀ e : DTime,
      r.end_datetime = some e → r.end_time_format = none → r.start_time_format ≠ none →
        ∃ m, r.reprStr = .error (.typeError m)) := by
  refine ⟨?_, ?_, ?_⟩
  · intro r sf ef hsf hef
    constructor
    · intro hno
      rcases hs : r.start_datetime with _ | s <;> rcases he : r.end_datetime with _ | e <;>
        rcases hfl : r.is_output_elapse <;>
          simp_all [DateTimeRange.reprStr, DateTimeRange.get_start_time_str,
            DateTimeRange.get_end_time_str]
    · intro s e hfl hs he ha
      have hea : e.aware = s.aware := ha.symm
      simp [DateTimeRange.reprStr, hfl, hs, he, hsf, hef, dtSub, hea,
        DateTimeRange.get_start_time_str, DateTimeRange.get_end_time_str]
  · intro r s hs hsf
    rcases he : r.end_datetime with _ | e
    · refine ⟨"strftime() argument 1 must be str, not None", ?_⟩
      simp [DateTimeRange.reprStr, hs, he, hsf, DateTimeRange.get_start_time_str]
    · rcases hfl : r.is_output_elapse
      · refine ⟨"strftime() argument 1 must be str, not None", ?_⟩
        simp [DateTimeRange.reprStr, hs, he, hsf, hfl, DateTimeRange.get_start_time_str]
      · by_cases ha : e.aware = s.aware
        · refine ⟨"strftime() argument 1 must be str, not None", ?_⟩
          simp [DateTimeRange.reprStr, hs, he, hsf, hfl, dtSub, ha,
            DateTimeRange.get_start_time_str]
        · refine ⟨naiveAwareMsg, ?_⟩
          simp [DateTimeRange.reprStr, hs, he, hsf, hfl, dtSub, ha,
            DateTimeRange.get_start_time_str]
  · intro r e he hef hsf
    rcases hsf2 : r.start_time_format with _ | sf
    · exact absurd hsf2 hsf
    · rcases hs : r.start_datetime with _ | s
      · refine ⟨"strftime() argument 1 must be str, not None", ?_⟩
        simp [DateTimeRange.reprStr, hs, he, hef, hsf2, DateTimeRange.get_start_time_str,
          DateTimeRange.get_end_time_str]
      · rcases hfl : r.is_output_elapse
        · refine ⟨"strftime() argument 1 must be str, not None", ?_⟩
          simp [DateTimeRange.reprStr, hs, he, hef, hsf2, hfl,
            DateTimeRange.get_start_time_str, DateTimeRange.get_end_time_str]
        · by_cases ha : e.aware = s.aware
          · refine ⟨"strftime() argument 1 must be str, not None", ?_⟩
            simp [DateTimeRange.reprStr, hs, he, hef, hsf2, hfl, dtSub, ha,
              DateTimeRange.get_start_time_str, DateTimeRange.get_end_time_str]
          · refine ⟨naiveAwareMsg, ?_⟩
            simp [DateTimeRange.reprStr, hs, he, hef, hsf2, hfl, dtSub, ha,
              DateTimeRange.get_start_time_str, DateTimeRange.get_end_time_str]

/-- Claim C8 witness: the amended theorem instantiated at a half-set range
without suffix, a fully set range with elapsed suffix, and a present start
endpoint with a `None` start format. -/
theorem C8_repr_witness :
    ({ start_datetime := none, end_datetime := some ⟨10, none⟩,
       start_time_format := some "F", end_time_format := some "G",
       is_output_elapse := false, separator := " - " } : DateTimeRange).reprStr =
      .ok (NOT_A_TIME_STR ++ " - " ++ strftime ⟨10, none⟩ "G") ∧
    ({ start_datetime := some ⟨3, none⟩, end_datetime := some ⟨10, none⟩,
       start_time_format := some "F", end_time_format := some "G",
       is_output_elapse := true, separator := " - " } : DateTimeRange).reprStr =
      .ok (strftime ⟨3, none⟩ "F" ++ " - " ++ strftime ⟨10, none⟩ "G" ++
           (" (" ++ tdStr ⟨7⟩ ++ ")")) ∧
    (∃ m, ({ start_datetime := some ⟨3, none⟩, end_datetime := none,
             start_time_format := none, end_time_format := some "G",
             is_output_elapse := false, separator := " - " } : DateTimeRange).reprStr =
            .error (.typeError m)) := by
  obtain ⟨h1, h2, h3⟩ := C8_repr
  refine ⟨?_, ?_, ?_⟩
  · exact (h1 _ "F" "G" rfl rfl).1 (by simp)
  · exact (h1 _ "F" "G" rfl rfl).2 ⟨3, none⟩ ⟨10, none⟩ rfl rfl rfl (by decide)
  · exact h2 _ ⟨3, none⟩ rfl rfl

/-- Claim C10: for every valid (set, non-inverted) range and every percentage
p >= 0 (on which `truncate` succeeds), the start endpoint moves forward and the
end endpoint moves backward by the same nonnegative amount
`(end - start) // 100 * int(p / 2)`, so the midpoint `start + end` is
unchanged, the duration decreases by exactly twice that amount, and
`truncate 0` leaves the range completely unchanged. -/
theorem C10_truncate :
    ∀ (r : DateTimeRange) (p : ℚ), r.validate_time_inversion = .ok () → 0 ≤ p →
      ∃ (r2 : DateTimeRange) (s e s2 e2 : DTime),
        r.truncate p = .ok r2 ∧
        r.start_datetime = some s ∧ r.end_datetime = some e ∧
        r2.start_datetime = some s2 ∧ r2.end_datetime = some e2 ∧
        s2.val = s.val + (e.val - s.val).fdiv 100 * ⌊p / 2⌋ ∧
        e2.val = e.val - (e.val - s.val).fdiv 100 * ⌊p / 2⌋ ∧
        0 ≤ (e.val - s.val).fdiv 100 * ⌊p / 2⌋ ∧
        s2.val + e2.val = s.val + e.val ∧
        e2.val - s2.val = (e.val - s.val) - 2 * ((e.val - s.val).fdiv 100 * ⌊p / 2⌋) ∧
        (p = 0 → r2 = r) := by
  intro r p hval hp
  obtain ⟨s, e, hs, he, htz, hle⟩ := (validate_ok_iff r).mp hval
  have hd0 : (0 : Int) ≤ (e.val - s.val).fdiv 100 * ⌊p / 2⌋ := by
    have h1 : (0 : Int) ≤ (e.val - s.val).fdiv 100 :=
      Int.fdiv_nonneg (by omega) (by omega)
    have h2 : (0 : Int) ≤ ⌊p / 2⌋ := by
      apply Int.le_floor.mpr
      simpa using by positivity
    positivity
  by_cases hp0 : p = 0
  · refine ⟨r, s, e, s, e, ?_, hs, he, hs, he, ?_, ?_, hd0, by ring, ?_, fun _ => rfl⟩
    · simp [DateTimeRange.truncate, hval, hp0]
    · simp [hp0]
    · simp [hp0]
    · simp [hp0]
  · have hnlt : ¬p < 0 := not_lt.mpr hp
    have htdp : r.timedeltaProp = .ok ⟨e.val - s.val⟩ := by
      simp [DateTimeRange.timedeltaProp, hs, he, dtSub, aware_of_tz_eq htz]
    refine ⟨{ r with
                start_datetime := some ⟨s.val + (e.val - s.val).fdiv 100 * ⌊p / 2⌋, s.tz⟩,
                end_datetime := some ⟨e.val - (e.val - s.val).fdiv 100 * ⌊p / 2⌋, e.tz⟩ },
      s, e,
      ⟨s.val + (e.val - s.val).fdiv 100 * ⌊p / 2⌋, s.tz⟩,
      ⟨e.val - (e.val - s.val).fdiv 100 * ⌊p / 2⌋, e.tz⟩,
      ?_, hs, he, rfl, rfl, rfl, rfl, hd0, by ring, by ring, fun h => absurd h hp0⟩
    simp [DateTimeRange.truncate, hval, if_neg hnlt, hp0, htdp, hs, he, dtAddTd, dtSubTd]

/-- Claim C10 witness: truncating the 10-minute naive range by 10 percent moves
the bounds inward by 30 seconds each. -/
theorem C10_truncate_witness :
    ∃ (r2 : DateTimeRange) (s e s2 e2 : DTime),
      (DateTimeRange.make (some ⟨0, none⟩) (some ⟨600000000, none⟩) none none).truncate 10 =
        .ok r2 ∧
      (DateTimeRange.make (some ⟨0, none⟩) (some ⟨600000000, none⟩) none none).start_datetime =
        some s ∧
      (DateTimeRange.make (some ⟨0, none⟩) (some ⟨600000000, none⟩) none none).end_datetime =
        some e ∧
      r2.start_datetime = some s2 ∧ r2.end_datetime = some e2 ∧
      s2.val = s.val + (e.val - s.val).fdiv 100 * ⌊(10 : ℚ) / 2⌋ ∧
      e2.val = e.val - (e.val - s.val).fdiv 100 * ⌊(10 : ℚ) / 2⌋ ∧
      0 ≤ (e.val - s.val).fdiv 100 * ⌊(10 : ℚ) / 2⌋ ∧
      s2.val + e2.val = s.val + e.val ∧
      e2.val - s2.val = (e.val - s.val) - 2 * ((e.val - s.val).fdiv 100 * ⌊(10 : ℚ) / 2⌋) ∧
      ((10 : ℚ) = 0 → r2 = DateTimeRange.make (some ⟨0, none⟩) (some ⟨600000000, none⟩) none none) := by
  exact C10_truncate (DateTimeRange.make (some ⟨0, none⟩) (some ⟨600000000, none⟩) none none) 10
    (by rfl) (by norm_num)

/-- Evaluation of `encompass` on two validated set ranges: with compatible
awareness it spans the Python `min`/`max` picks; with mixed naive/aware
operands the first comparison raises. -/
theorem encompass_eval (r1 r2 : DateTimeRange) (s1 e1 s2 e2 : DTime)
    (h1 : r1.validate_time_inversion = .ok ()) (h2 : r2.validate_time_inversion = .ok ())
    (hs1 : r1.start_datetime = some s1) (he1 : r1.end_datetime = some e1)
    (hs2 : r2.start_datetime = some s2) (he2 : r2.end_datetime = some e2) :
    r1.encompass r2 =
      if s2.aware = s1.aware then
        .ok (DateTimeRange.make
          (some (if s2.val < s1.val then s2 else s1))
          (some (if e2.val > e1.val then e2 else e1))
          r1.start_time_format r1.end_time_format)
      else .error (.typeError naiveAwareMsg) := by
  have ha1 : e1.aware = s1.aware := by
    obtain ⟨s, e, hs, he, htz, -⟩ := (validate_ok_iff r1).mp h1
    obtain rfl : s = s1 := by rw [hs1] at hs; exact (Option.some.inj hs).symm
    obtain rfl : e = e1 := by rw [he1] at he; exact (Option.some.inj he).symm
    exact (aware_of_tz_eq htz).symm
  have ha2 : e2.aware = s2.aware := by
    obtain ⟨s, e, hs, he, htz, -⟩ := (validate_ok_iff r2).mp h2
    obtain rfl : s = s2 := by rw [hs2] at hs; exact (Option.some.inj hs).symm
    obtain rfl : e = e2 := by rw [he2] at he; exact (Option.some.inj he).symm
    exact (aware_of_tz_eq htz).symm
  unfold DateTimeRange.encompass
  rw [h1]
  simp only [pyBind_ok]
  rw [h2]
  simp only [pyBind_ok, hs1, he1, hs2, he2]
  by_cases haw : s2.aware = s1.aware
  · have hew : e2.aware = e1.aware := by rw [ha1, ha2, haw]
    by_cases hlt : s2.val < s1.val <;> by_cases hgt : e1.val < e2.val <;>
      simp [dtMin, dtMax, dtLt, dtGt, haw, hew, hlt, hgt] <;> rfl
  · simp [dtMin, dtLt, haw]

/-- Claim C9: for every valid range R, `encompass R R` succeeds and equals R
under range equality (which compares only the endpoints); and for every pair of
valid ranges, `encompass` is commutative: the two evaluation orders either
yield ranges equal under `__eq__`, or raise the identical error; a successful
result spans `min(starts)` to `max(ends)`; no operand is mutated (the
operation constructs a fresh value). -/
theorem C9_encompass :
    (∀ r : DateTimeRange, r.validate_time_inversion = .ok () →
      ∃ res, r.encompass r = .ok res ∧ res.eqRange r = true) ∧
    (∀ r1 r2 : DateTimeRange, ∀ s1 e1 s2 e2 : DTime,
      r1.validate_time_inversion = .ok () → r2.validate_time_inversion = .ok () →
      r1.start_datetime = some s1 → r1.end_datetime = some e1 →
      r2.start_datetime = some s2 → r2.end_datetime = some e2 →
      ((∀ y, r1.encompass r2 = .ok y → ∃ z, r2.encompass r1 = .ok z ∧ y.eqRange z = true) ∧
       (∀ er, r1.encompass r2 = .error er → r2.encompass r1 = .error er) ∧
       (∀ y, r1.encompass r2 = .ok y → ∃ a b, y.start_datetime = some a ∧
          y.end_datetime = some b ∧ a.val = min s1.val s2.val ∧ b.val = max e1.val e2.val))) := by
  constructor
  · intro r hval
    obtain ⟨s, e, hs, he, htz, hle⟩ := (validate_ok_iff r).mp hval
    rw [encompass_eval r r s e s e hval hval hs he hs he]
    simp only [if_pos rfl, lt_irrefl, ite_self, gt_iff_lt]
    refine ⟨_, rfl, ?_⟩
    simp [DateTimeRange.eqRange, DateTimeRange.make, hs, he, dtEq]
  · intro r1 r2 s1 e1 s2 e2 h1 h2 hs1 he1 hs2 he2
    have heval12 := encompass_eval r1 r2 s1 e1 s2 e2 h1 h2 hs1 he1 hs2 he2
    have heval21 := encompass_eval r2 r1 s2 e2 s1 e1 h2 h1 hs2 he2 hs1 he1
    by_cases haw : s2.aware = s1.aware
    · have haw2 : s1.aware = s2.aware := haw.symm
      rw [if_pos haw] at heval12
      rw [if_pos haw2] at heval21
      have ha1 : e1.aware = s1.aware := by
        obtain ⟨s, e, hs, he, htz, -⟩ := (validate_ok_iff r1).mp h1
        obtain rfl : s = s1 := by rw [hs1] at hs; exact (Option.some.inj hs).symm
        obtain rfl : e = e1 := by rw [he1] at he; exact (Option.some.inj he).symm
        exact (aware_of_tz_eq htz).symm
      have ha2 : e2.aware = s2.aware := by
        obtain ⟨s, e, hs, he, htz, -⟩ := (validate_ok_iff r2).mp h2
        obtain rfl : s = s2 := by rw [hs2] at hs; exact (Option.some.inj hs).symm
        obtain rfl : e = e2 := by rw [he2] at he; exact (Option.some.inj he).symm
        exact (aware_of_tz_eq htz).symm
      refine ⟨?_, ?_, ?_⟩
      · intro y hy
        rw [heval12] at hy
        refine ⟨_, heval21, ?_⟩
        obtain rfl := Except.ok.inj hy
        simp only [DateTimeRange.eqRange, DateTimeRange.make, Bool.and_eq_true]
        constructor
        · by_cases hc : s2.val < s1.val <;> by_cases hc2 : s1.val < s2.val <;>
            simp [hc, hc2, dtEq, haw] <;> omega
        · by_cases hc : e2.val > e1.val <;> by_cases hc2 : e1.val > e2.val <;>
            simp [hc, hc2, dtEq, ha1, ha2, haw] <;> omega
      · intro er her
        rw [heval12] at her
        cases her
      · intro y hy
        rw [heval12] at hy
        obtain rfl := Except.ok.inj hy
        refine ⟨_, _, rfl, rfl, ?_, ?_⟩
        · by_cases hc : s2.val < s1.val <;> simp [hc, DateTimeRange.make] <;> omega
        · by_cases hc : e2.val > e1.val <;> simp [hc, DateTimeRange.make] <;> omega
    · have haw2 : ¬s1.aware = s2.aware := fun h => haw h.symm
      rw [if_neg haw] at heval12
      rw [if_neg haw2] at heval21
      refine ⟨?_, ?_, ?_⟩
      · intro y hy
        rw [heval12] at hy
        cases hy
      · intro er her
        rw [heval12] at her
        obtain rfl : PyErr.typeError naiveAwareMsg = er := Except.error.inj her
        exact heval21
      · intro y hy
        rw [heval12] at hy
        cases hy

/-- Claim C9 witness: self-encompass on a valid aware range, and commutativity
with span on the documentation's example pair. -/
theorem C9_encompass_witness :
    (∃ res, (DateTimeRange.make (some ⟨0, some 32400⟩) (some ⟨600000000, some 32400⟩)
        none none).encompass
        (DateTimeRange.make (some ⟨0, some 32400⟩) (some ⟨600000000, some 32400⟩) none none) =
        .ok res ∧
      res.eqRange (DateTimeRange.make (some ⟨0, some 32400⟩) (some ⟨600000000, some 32400⟩)
        none none) = true) ∧
    (∀ y, (DateTimeRange.make (some ⟨0, some 32400⟩) (some ⟨600000000, some 32400⟩)
        none none).encompass
        (DateTimeRange.make (some ⟨300000000, some 32400⟩) (some ⟨900000000, some 32400⟩)
          none none) = .ok y →
      ∃ a b, y.start_datetime = some a ∧ y.end_datetime = some b ∧
        a.val = min (0 : Int) 300000000 ∧ b.val = max (600000000 : Int) 900000000) := by
  obtain ⟨h1, h2⟩ := C9_encompass
  constructor
  · exact h1 _ (by rfl)
  · exact fun y hy =>
      (h2 _ _ ⟨0, some 32400⟩ ⟨600000000, some 32400⟩ ⟨300000000, some 32400⟩
        ⟨900000000, some 32400⟩ (by rfl) (by rfl) rfl rfl rfl rfl).2.2 y hy

/-- Claim C1 counterexample: two individually valid ranges (one naive, one
aware) on which `intersection` raises a `TypeError` instead of returning a
range, refuting the claim for arbitrary pairs on which
`validate_time_inversion` succeeds. -/
theorem C1_counterexample :
    (DateTimeRange.make (some ⟨0, none⟩) (some ⟨10, none⟩) none none).validate_time_inversion =
      .ok () ∧
    (DateTimeRange.make (some ⟨0, some 0⟩) (some ⟨10, some 0⟩) none none).validate_time_inversion =
      .ok () ∧
    (DateTimeRange.make (some ⟨0, none⟩) (some ⟨10, none⟩) none none).intersection
      (DateTimeRange.make (some ⟨0, some 0⟩) (some ⟨10, some 0⟩) none none) none =
      .error (.typeError naiveAwareMsg) := by
  exact ⟨rfl, rfl, rfl⟩

/-- Claim C1 (amended): for every pair of ranges on which
`validate_time_inversion` succeeds and whose endpoints agree in
timezone-awareness, `intersection` returns a fresh range carrying `self`'s
format strings, whose bounds are `max(starts)` / `min(ends)` exactly when
`x.start` lies in `self`'s closed interval or `self.start` lies in `x`'s
closed interval, and are both absent otherwise; with a threshold supplied, a
found non-empty intersection whose duration compares strictly below the
threshold (under the normalized calendar comparison) is replaced by an
absent/absent result. -/
theorem C1_intersection :
    ∀ (self x : DateTimeRange) (ss se xs xe : DTime) (thr : Option Delta),
      self.validate_time_inversion = .ok () → x.validate_time_inversion = .ok () →
      self.start_datetime = some ss → self.end_datetime = some se →
      x.start_datetime = some xs → x.end_datetime = some xe →
      xs.aware = ss.aware →
      ∃ res, self.intersection x thr = .ok res ∧
        res.start_time_format = some (fmtOr self.start_time_format) ∧
        res.end_time_format = some (fmtOr self.end_time_format) ∧
        (¬((ss.val ≤ xs.val ∧ xs.val ≤ se.val) ∨ (xs.val ≤ ss.val ∧ ss.val ≤ xe.val)) →
          res.start_datetime = none ∧ res.end_datetime = none) ∧
        (((ss.val ≤ xs.val ∧ xs.val ≤ se.val) ∨ (xs.val ≤ ss.val ∧ ss.val ≤ xe.val)) →
          ∃ M N : DTime, M.val = max ss.val xs.val ∧ N.val = min se.val xe.val ∧
            (thr = none → res.start_datetime = some M ∧ res.end_datetime = some N) ∧
            (∀ t : Delta, thr = some t →
              (compare_relativedelta (Timedelta.toNormRd ⟨N.val - M.val⟩) t.toNormRd < 0 →
                 res.start_datetime = none ∧ res.end_datetime = none) ∧
              (¬compare_relativedelta (Timedelta.toNormRd ⟨N.val - M.val⟩) t.toNormRd < 0 →
                 res.start_datetime = some M ∧ res.end_datetime = some N))) := by
  intro self x ss se xs xe thr h1 h2 hss hse hxs hxe haw
  have hsea : se.aware = ss.aware := by
    obtain ⟨s, e, hs, he, htz, -⟩ := (validate_ok_iff self).mp h1
    obtain rfl : s = ss := by rw [hss] at hs; exact (Option.some.inj hs).symm
    obtain rfl : e = se := by rw [hse] at he; exact (Option.some.inj he).symm
    exact (aware_of_tz_eq htz).symm
  have hxea : xe.aware = xs.aware := by
    obtain ⟨s, e, hs, he, htz, -⟩ := (validate_ok_iff x).mp h2
    obtain rfl : s = xs := by rw [hxs] at hs; exact (Option.some.inj hs).symm
    obtain rfl : e = xe := by rw [hxe] at he; exact (Option.some.inj he).symm
    exact (aware_of_tz_eq htz).symm
  have hc1 := containsDt_eval self ss se xs h1 hss hse haw
  have hc2 := containsDt_eval x xs xe ss h2 hxs hxe haw.symm
  unfold DateTimeRange.intersection
  rw [h1]
  simp only [pyBind_ok]
  rw [h2]
  simp only [pyBind_ok, hss, hse, hxs, hxe]
  rw [hc1]
  simp only [pyBind_ok]
  rw [hc2]
  simp only [pyBind_ok]
  by_cases hcond : (ss.val ≤ xs.val ∧ xs.val ≤ se.val) ∨ (xs.val ≤ ss.val ∧ ss.val ≤ xe.val)
  · have hb : (decide (ss.val ≤ xs.val ∧ xs.val ≤ se.val) ||
        decide (xs.val ≤ ss.val ∧ ss.val ≤ xe.val)) = true := by
      simp only [Bool.or_eq_true, decide_eq_true_eq]
      exact hcond
    rw [hb]
    have hMax : dtMax ss xs = .ok (if ss.val < xs.val then xs else ss) := by
      by_cases h : ss.val < xs.val <;> simp [dtMax, dtGt, haw, h] <;> rfl
    have hMin : dtMin se xe = .ok (if xe.val < se.val then xe else se) := by
      have hxse : xe.aware = se.aware := by rw [hxea, haw, hsea]
      by_cases h : xe.val < se.val <;> simp [dtMin, dtLt, hxse, h] <;> rfl
    simp only [if_true, Bool.true_eq, hMax, pyBind_ok, hMin, pure_bind]
    set M : DTime := if ss.val < xs.val then xs else ss with hM
    set N : DTime := if xe.val < se.val then xe else se with hN
    have hMval : M.val = max ss.val xs.val := by
      rw [hM]
      by_cases hlt : ss.val < xs.val <;> simp [hlt] <;> omega
    have hNval : N.val = min se.val xe.val := by
      rw [hN]
      by_cases hlt : xe.val < se.val <;> simp [hlt] <;> omega
    have hMaw : M.aware = ss.aware := by
      rw [hM]
      by_cases hlt : ss.val < xs.val <;> simp [hlt, haw]
    have hNaw : N.aware = ss.aware := by
      rw [hN]
      by_cases hlt : xe.val < se.val <;> simp [hlt, hsea, hxea, haw]
    cases thr with
    | none =>
        refine ⟨_, rfl, rfl, rfl, fun hc => absurd hcond hc, fun _ => ⟨M, N, hMval, hNval, ?_, ?_⟩⟩
        · intro _
          exact ⟨rfl, rfl⟩
        · intro t ht
          cases ht
    | some t =>
        have hsub : dtSub N M = .ok ⟨N.val - M.val⟩ := by
          simp [dtSub, hMaw, hNaw]
        simp only [pure_bind, hsub, pyBind_ok]
        by_cases hlt : compare_relativedelta (Timedelta.toNormRd ⟨N.val - M.val⟩) t.toNormRd < 0
        · simp only [if_pos hlt]
          refine ⟨_, rfl, rfl, rfl, fun hc => absurd hcond hc, fun _ => ⟨M, N, hMval, hNval, ?_, ?_⟩⟩
          · intro h
            cases h
          · intro t2 ht2
            obtain rfl : t = t2 := Option.some.inj ht2
            exact ⟨fun _ => ⟨rfl, rfl⟩, fun hc => absurd hlt hc⟩
        · simp only [if_neg hlt]
          refine ⟨_, rfl, rfl, rfl, fun hc => absurd hcond hc, fun _ => ⟨M, N, hMval, hNval, ?_, ?_⟩⟩
          · intro h
            cases h
          · intro t2 ht2
            obtain rfl : t = t2 := Option.some.inj ht2
            exact ⟨fun hc => absurd hc hlt, fun _ => ⟨rfl, rfl⟩⟩
  · have hb : (decide (ss.val ≤ xs.val ∧ xs.val ≤ se.val) ||
        decide (xs.val ≤ ss.val ∧ ss.val ≤ xe.val)) = false := by
      simp only [Bool.or_eq_false_iff, decide_eq_false_iff_not]
      exact ⟨fun h => hcond (Or.inl h), fun h => hcond (Or.inr h)⟩
    rw [hb]
    cases thr with
    | none =>
        refine ⟨_, rfl, rfl, rfl, fun _ => ⟨rfl, rfl⟩, fun hc => absurd hc hcond⟩
    | some t =>
        refine ⟨_, rfl, rfl, rfl, fun _ => ⟨rfl, rfl⟩, fun hc => absurd hc hcond⟩

/-- Claim C1 witness: the documentation example pair with and without a
threshold longer than the 5-minute overlap. -/
theorem C1_intersection_witness :
    (∃ res, (DateTimeRange.make (some ⟨0, some 32400⟩) (some ⟨600000000, some 32400⟩)
        none none).intersection
        (DateTimeRange.make (some ⟨300000000, some 32400⟩) (some ⟨900000000, some 32400⟩)
          none none) none = .ok res ∧
      res.start_time_format = some (fmtOr none) ∧
      res.end_time_format = some (fmtOr none) ∧
      (¬(((0 : Int) ≤ 300000000 ∧ (300000000 : Int) ≤ 600000000) ∨
          ((300000000 : Int) ≤ 0 ∧ (0 : Int) ≤ 900000000)) →
        res.start_datetime = none ∧ res.end_datetime = none) ∧
      ((((0 : Int) ≤ 300000000 ∧ (300000000 : Int) ≤ 600000000) ∨
          ((300000000 : Int) ≤ 0 ∧ (0 : Int) ≤ 900000000)) →
        ∃ M N : DTime, M.val = max (0 : Int) 300000000 ∧ N.val = min (600000000 : Int) 900000000 ∧
          ((none : Option Delta) = none → res.start_datetime = some M ∧ res.end_datetime = some N) ∧
          (∀ t : Delta, (none : Option Delta) = some t →
            (compare_relativedelta (Timedelta.toNormRd ⟨N.val - M.val⟩) t.toNormRd < 0 →
               res.start_datetime = none ∧ res.end_datetime = none) ∧
            (¬compare_relativedelta (Timedelta.toNormRd ⟨N.val - M.val⟩) t.toNormRd < 0 →
               res.start_datetime = some M ∧ res.end_datetime = some N)))) := by
  exact C1_intersection _ _ ⟨0, some 32400⟩ ⟨600000000, some 32400⟩ ⟨300000000, some 32400⟩
    ⟨900000000, some 32400⟩ none (by rfl) (by rfl) rfl rfl rfl rfl (by decide)

/-- Evaluation of `intersection` without threshold on validated,
awareness-compatible operands: the bounds are the Python `max`/`min` picks when
either start probe is contained in the other range, and absent otherwise. -/
theorem intersection_none_eval (self x : DateTimeRange) (ss se xs xe : DTime)
    (h1 : self.validate_time_inversion = .ok ()) (h2 : x.validate_time_inversion = .ok ())
    (hss : self.start_datetime = some ss) (hse : self.end_datetime = some se)
    (hxs : x.start_datetime = some xs) (hxe : x.end_datetime = some xe)
    (haw : xs.aware = ss.aware) :
    self.intersection x none = .ok (DateTimeRange.make
      (if (ss.val ≤ xs.val ∧ xs.val ≤ se.val) ∨ (xs.val ≤ ss.val ∧ ss.val ≤ xe.val) then
        some (if ss.val < xs.val then xs else ss) else none)
      (if (ss.val ≤ xs.val ∧ xs.val ≤ se.val) ∨ (xs.val ≤ ss.val ∧ ss.val ≤ xe.val) then
        some (if xe.val < se.val then xe else se) else none)
      self.start_time_format self.end_time_format) := by
  have hsea : se.aware = ss.aware := by
    obtain ⟨s, e, hs, he, htz, -⟩ := (validate_ok_iff self).mp h1
    obtain rfl : s = ss := by rw [hss] at hs; exact (Option.some.inj hs).symm
    obtain rfl : e = se := by rw [hse] at he; exact (Option.some.inj he).symm
    exact (aware_of_tz_eq htz).symm
  have hxea : xe.aware = xs.aware := by
    obtain ⟨s, e, hs, he, htz, -⟩ := (validate_ok_iff x).mp h2
    obtain rfl : s = xs := by rw [hxs] at hs; exact (Option.some.inj hs).symm
    obtain rfl : e = xe := by rw [hxe] at he; exact (Option.some.inj he).symm
    exact (aware_of_tz_eq htz).symm
  have hc1 := containsDt_eval self ss se xs h1 hss hse haw
  have hc2 := containsDt_eval x xs xe ss h2 hxs hxe haw.symm
  unfold DateTimeRange.intersection
  rw [h1]
  simp only [pyBind_ok]
  rw [h2]
  simp only [pyBind_ok, hss, hse, hxs, hxe]
  rw [hc1]
  simp only [pyBind_ok]
  rw [hc2]
  simp only [pyBind_ok]
  by_cases hcond : (ss.val ≤ xs.val ∧ xs.val ≤ se.val) ∨ (xs.val ≤ ss.val ∧ ss.val ≤ xe.val)
  · have hb : (decide (ss.val ≤ xs.val ∧ xs.val ≤ se.val) ||
        decide (xs.val ≤ ss.val ∧ ss.val ≤ xe.val)) = true := by
      simp only [Bool.or_eq_true, decide_eq_true_eq]
      exact hcond
    rw [hb]
    have hMax : dtMax ss xs = .ok (if ss.val < xs.val then xs else ss) := by
      by_cases h : ss.val < xs.val <;> simp [dtMax, dtGt, haw, h] <;> rfl
    have hMin : dtMin se xe = .ok (if xe.val < se.val then xe else se) := by
      have hxse : xe.aware = se.aware := by rw [hxea, haw, hsea]
      by_cases h : xe.val < se.val <;> simp [dtMin, dtLt, hxse, h] <;> rfl
    simp only [if_true, Bool.true_eq, hMax, pyBind_ok, hMin, pure_bind, if_pos hcond]
    rfl
  · have hb : (decide (ss.val ≤ xs.val ∧ xs.val ≤ se.val) ||
        decide (xs.val ≤ ss.val ∧ ss.val ≤ xe.val)) = false := by
      simp only [Bool.or_eq_false_iff, decide_eq_false_iff_not]
      exact ⟨fun h => hcond (Or.inl h), fun h => hcond (Or.inr h)⟩
    rw [hb]
    simp only [if_neg hcond]
    rfl

/-- Claim C2 counterexample: two individually valid ranges, one naive and one
aware, on which `subtract` raises a `TypeError` (via `intersection`) instead
of returning a list, refuting the claim for arbitrary pairs of valid
ranges. -/
theorem C2_counterexample :
    (DateTimeRange.make (some ⟨0, none⟩) (some ⟨20, none⟩) none none).validate_time_inversion =
      .ok () ∧
    (DateTimeRange.make (some ⟨5, some 0⟩) (some ⟨15, some 0⟩) none none).validate_time_inversion =
      .ok () ∧
    (DateTimeRange.make (some ⟨0, none⟩) (some ⟨20, none⟩) none none).subtract
      (DateTimeRange.make (some ⟨5, some 0⟩) (some ⟨15, some 0⟩) none none) =
      .error (.typeError naiveAwareMsg) := by
  exact ⟨rfl, rfl, rfl⟩

/-- Claim C2 (amended): for every pair of valid (set, non-inverted) ranges
whose endpoints agree in timezone-awareness, `subtract` returns: a
single-element list holding a copy of `self` when the overlap is unset or has
non-positive duration; an empty list when the overlap equals `self` exactly;
`[overlap.end, self.end]` when the overlap starts exactly at `self.start` but
does not cover `self`; `[self.start, overlap.start]` when the overlap ends
exactly at `self.end`; and both remainders for an interior overlap.  All
returned ranges are freshly constructed with `self`'s format strings; the
operands are not mutated (the operation is a pure construction). -/
theorem C2_subtract :
    ∀ (self x : DateTimeRange) (ss se xs xe : DTime),
      self.validate_time_inversion = .ok () → x.validate_time_inversion = .ok () →
      self.start_datetime = some ss → self.end_datetime = some se →
      x.start_datetime = some xs → x.end_datetime = some xe →
      xs.aware = ss.aware →
      ∃ (L : List DateTimeRange) (overlap : DateTimeRange),
        self.subtract x = .ok L ∧
        self.intersection x none = .ok overlap ∧
        ((overlap.is_set = false ∨ (∃ td, overlap.timedeltaProp = .ok td ∧ td.usec ≤ 0)) →
          L = [DateTimeRange.make (some ss) (some se)
                 self.start_time_format self.end_time_format]) ∧
        (∀ a b : DTime, overlap.start_datetime = some a → overlap.end_datetime = some b →
          0 < b.val - a.val →
          ((dtEq a ss = true → dtEq b se = true → L = []) ∧
           (dtEq a ss = true → dtEq b se = false →
              L = [DateTimeRange.make (some b) (some se)
                     self.start_time_format self.end_time_format]) ∧
           (dtEq a ss = false → dtEq b se = true →
              L = [DateTimeRange.make (some ss) (some a)
                     self.start_time_format self.end_time_format]) ∧
           (dtEq a ss = false → dtEq b se = false →
              L = [DateTimeRange.make (some ss) (some a)
                     self.start_time_format self.end_time_format,
                   DateTimeRange.make (some b) (some se)
                     self.start_time_format self.end_time_format]))) := by
  intro self x ss se xs xe h1 h2 hss hse hxs hxe haw
  have hov := intersection_none_eval self x ss se xs xe h1 h2 hss hse hxs hxe haw
  have haws : (if ss.val < xs.val then xs else ss).aware = ss.aware := by
    by_cases h : ss.val < xs.val <;> simp [h, haw]
  have hsea : se.aware = ss.aware := by
    obtain ⟨s, e, hs, he, htz, -⟩ := (validate_ok_iff self).mp h1
    obtain rfl : s = ss := by rw [hss] at hs; exact (Option.some.inj hs).symm
    obtain rfl : e = se := by rw [hse] at he; exact (Option.some.inj he).symm
    exact (aware_of_tz_eq htz).symm
  have hxea : xe.aware = xs.aware := by
    obtain ⟨s, e, hs, he, htz, -⟩ := (validate_ok_iff x).mp h2
    obtain rfl : s = xs := by rw [hxs] at hs; exact (Option.some.inj hs).symm
    obtain rfl : e = xe := by rw [hxe] at he; exact (Option.some.inj he).symm
    exact (aware_of_tz_eq htz).symm
  have hawe : (if xe.val < se.val then xe else se).aware = ss.aware := by
    by_cases h : xe.val < se.val <;> simp [h, hsea, hxea, haw]
  by_cases hcond : (ss.val ≤ xs.val ∧ xs.val ≤ se.val) ∨ (xs.val ≤ ss.val ∧ ss.val ≤ xe.val)
  · set M : DTime := if ss.val < xs.val then xs else ss with hM
    set N : DTime := if xe.val < se.val then xe else se with hN
    rw [if_pos hcond, if_pos hcond] at hov
    have htdov : (DateTimeRange.make (some M) (some N)
        self.start_time_format self.end_time_format).timedeltaProp = .ok ⟨N.val - M.val⟩ := by
      simp only [DateTimeRange.timedeltaProp, DateTimeRange.make, dtSub]
      rw [if_pos (by rw [hawe, haws])]
    by_cases htd : N.val - M.val ≤ 0
    · refine ⟨_, _, ?_, hov, fun _ => rfl, ?_⟩
      · unfold DateTimeRange.subtract
        rw [hov]
        simp only [pyBind_ok]
        have hset : (DateTimeRange.make (some M) (some N)
            self.start_time_format self.end_time_format).is_set = true := rfl
        rw [hset]
        simp only [Bool.not_true, Bool.false_eq_true, if_false, htdov, pyBind_ok, hss, hse]
        rw [if_pos (by simpa using htd)]
        rfl
      · intro a b ha hb hpos
        obtain rfl : a = M := by
          simpa [DateTimeRange.make] using ha.symm
        obtain rfl : b = N := by
          simpa [DateTimeRange.make] using hb.symm
        exfalso
        have hNM : N.val ≤ M.val := by simpa using htd
        omega
    · have hset : (DateTimeRange.make (some M) (some N)
          self.start_time_format self.end_time_format).is_set = true := rfl
      have hL : self.subtract x = .ok
          (if dtEq M ss && dtEq N se then []
           else if dtEq M ss then
             [DateTimeRange.make (some N) (some se) self.start_time_format self.end_time_format]
           else if dtEq N se then
             [DateTimeRange.make (some ss) (some M) self.start_time_format self.end_time_format]
           else
             [DateTimeRange.make (some ss) (some M) self.start_time_format self.end_time_format,
              DateTimeRange.make (some N) (some se)
                self.start_time_format self.end_time_format]) := by
        unfold DateTimeRange.subtract
        rw [hov]
        simp only [pyBind_ok, hset, Bool.not_true, Bool.false_eq_true, if_false, htdov]
        rw [if_neg (by simpa using htd)]
        simp only [DateTimeRange.make, hss, hse]
        by_cases e1 : dtEq M ss = true <;> by_cases e2 : dtEq N se = true <;>
          simp [e1, e2] <;> rfl
      refine ⟨_, _, hL, hov, ?_, ?_⟩
      · rintro (hbad | ⟨td, htd2, hle⟩)
        · exact absurd hbad (by rw [hset]; simp)
        · rw [htdov] at htd2
          obtain rfl := Except.ok.inj htd2
          have hle2 : N.val - M.val ≤ 0 := by simpa using hle
          omega
      · intro a b ha hb hpos
        obtain rfl : a = M := by
          simpa [DateTimeRange.make] using ha.symm
        obtain rfl : b = N := by
          simpa [DateTimeRange.make] using hb.symm
        refine ⟨?_, ?_, ?_, ?_⟩
        · intro e1 e2
          simp [e1, e2]
        · intro e1 e2
          simp [e1, e2]
        · intro e1 e2
          simp [e1, e2]
        · intro e1 e2
          simp [e1, e2]
  · rw [if_neg hcond, if_neg hcond] at hov
    refine ⟨_, _, ?_, hov, fun _ => rfl, ?_⟩
    · unfold DateTimeRange.subtract
      rw [hov]
      simp only [pyBind_ok]
      have hset : (DateTimeRange.make none none
          self.start_time_format self.end_time_format).is_set = false := rfl
      rw [hset]
      simp only [Bool.not_false, if_true, hss, hse]
      rfl
    · intro a b ha hb hpos
      exact absurd ha.symm (by simp [DateTimeRange.make])

/-- Claim C2 witness: the amended theorem instantiated at a pair with an
interior overlap. -/
theorem C2_subtract_witness :
    ∃ (L : List DateTimeRange) (overlap : DateTimeRange),
      (DateTimeRange.make (some ⟨0, none⟩) (some ⟨600, none⟩) none none).subtract
        (DateTimeRange.make (some ⟨100, none⟩) (some ⟨200, none⟩) none none) = .ok L ∧
      (DateTimeRange.make (some ⟨0, none⟩) (some ⟨600, none⟩) none none).intersection
        (DateTimeRange.make (some ⟨100, none⟩) (some ⟨200, none⟩) none none) none =
        .ok overlap ∧
      ((overlap.is_set = false ∨ (∃ td, overlap.timedeltaProp = .ok td ∧ td.usec ≤ 0)) →
        L = [DateTimeRange.make (some ⟨0, none⟩) (some ⟨600, none⟩)
               (DateTimeRange.make (some ⟨0, none⟩) (some ⟨600, none⟩)
                 none none).start_time_format
               (DateTimeRange.make (some ⟨0, none⟩) (some ⟨600, none⟩)
                 none none).end_time_format]) ∧
      (∀ a b : DTime, overlap.start_datetime = some a → overlap.end_datetime = some b →
        0 < b.val - a.val →
        ((dtEq a ⟨0, none⟩ = true → dtEq b ⟨600, none⟩ = true → L = []) ∧
         (dtEq a ⟨0, none⟩ = true → dtEq b ⟨600, none⟩ = false →
            L = [DateTimeRange.make (some b) (some ⟨600, none⟩)
                   (DateTimeRange.make (some ⟨0, none⟩) (some ⟨600, none⟩)
                     none none).start_time_format
                   (DateTimeRange.make (some ⟨0, none⟩) (some ⟨600, none⟩)
                     none none).end_time_format]) ∧
         (dtEq a ⟨0, none⟩ = false → dtEq b ⟨600, none⟩ = true →
            L = [DateTimeRange.make (some ⟨0, none⟩) (some a)
                   (DateTimeRange.make (some ⟨0, none⟩) (some ⟨600, none⟩)
                     none none).start_time_format
                   (DateTimeRange.make (some ⟨0, none⟩) (some ⟨600, none⟩)
                     none none).end_time_format]) ∧
         (dtEq a ⟨0, none⟩ = false → dtEq b ⟨600, none⟩ = false →
            L = [DateTimeRange.make (some ⟨0, none⟩) (some a)
                   (DateTimeRange.make (some ⟨0, none⟩) (some ⟨600, none⟩)
                     none none).start_time_format
                   (DateTimeRange.make (some ⟨0, none⟩) (some ⟨600, none⟩)
                     none none).end_time_format,
                 DateTimeRange.make (some b) (some ⟨600, none⟩)
                   (DateTimeRange.make (some ⟨0, none⟩) (some ⟨600, none⟩)
                     none none).start_time_format
                   (DateTimeRange.make (some ⟨0, none⟩) (some ⟨600, none⟩)
                     none none).end_time_format]))) := by
  exact C2_subtract _ _ ⟨0, none⟩ ⟨600, none⟩ ⟨100, none⟩ ⟨200, none⟩
    (by rfl) (by rfl) rfl rfl rfl rfl (by decide)

/-- The carry step splits its input exactly and preserves its sign in both
components. -/
theorem carryFix_spec (x bound base : Int) (hbase : 0 < base) :
    (carryFix x bound base).1 + base * (carryFix x bound base).2 = x ∧
    (0 ≤ x → 0 ≤ (carryFix x bound base).1 ∧ 0 ≤ (carryFix x bound base).2) ∧
    (x ≤ 0 → (carryFix x bound base).1 ≤ 0 ∧ (carryFix x bound base).2 ≤ 0) := by
  unfold carryFix
  by_cases h : bound < |x|
  · by_cases hneg : x < 0
    · simp only [if_pos h, if_pos hneg]
      have hid := Int.emod_add_ediv (x * -1) base
      have hmod : 0 ≤ (x * -1) % base := Int.emod_nonneg _ (by omega)
      have hdiv : 0 ≤ (x * -1) / base := Int.ediv_nonneg (by omega) (by omega)
      refine ⟨by linear_combination (-1 : Int) * hid, fun hx => absurd hx (by omega),
        fun hx => ⟨by omega, by omega⟩⟩
    · simp only [if_pos h, if_neg hneg]
      by_cases hx0 : x = 0
      · subst hx0
        simp
      · have hid := Int.emod_add_ediv (x * 1) base
        have hmod : 0 ≤ (x * 1) % base := Int.emod_nonneg _ (by omega)
        have hdiv : 0 ≤ (x * 1) / base := Int.ediv_nonneg (by omega) (by omega)
        refine ⟨by linear_combination hid, fun hx => ⟨by omega, by omega⟩,
          fun hx => absurd hx (by omega)⟩
  · simp only [if_neg h]
    exact ⟨by ring, fun hx => ⟨hx, le_refl 0⟩, fun hx => ⟨hx, le_refl 0⟩⟩

/-- The normalized relativedelta of a pair (whole seconds, microseconds in
range): explicit field values in terms of the carry chain. -/
theorem toNormRd_fields (s0 m0 : Int) (hm0 : 0 ≤ m0) (hm1 : m0 ≤ 999999) :
    rdFix { Relativedelta.zero with seconds := s0, microseconds := m0 } =
      { years := 0, months := 0,
        days := (carryFix (carryFix (carryFix s0 59 60).2 59 60).2 23 24).2,
        hours := (carryFix (carryFix (carryFix s0 59 60).2 59 60).2 23 24).1,
        minutes := (carryFix (carryFix s0 59 60).2 59 60).1,
        seconds := (carryFix s0 59 60).1,
        microseconds := m0 } := by
  have hpu : carryFix m0 999999 1000000 = (m0, 0) := by
    unfold carryFix
    rw [if_neg (by rw [abs_of_nonneg hm0]; omega)]
  have hmo : carryFix (0 : Int) 11 12 = (0, 0) := by decide
  show rdFix ⟨0, 0, 0, 0, 0, s0, m0⟩ = _
  unfold rdFix
  dsimp only
  rw [hpu, hmo]
  dsimp only
  norm_num

/-- Componentwise comparison of a days/hours/minutes/seconds/microseconds
vector against zero, under uniform sign assumptions. -/
theorem compare_fields_zero (d h mi se m0 : Int) :
    (0 ≤ d → 0 ≤ h → 0 ≤ mi → 0 ≤ se → 0 ≤ m0 →
      compare_relativedelta ⟨0, 0, d, h, mi, se, m0⟩ Relativedelta.zero =
        (if d = 0 ∧ h = 0 ∧ mi = 0 ∧ se = 0 ∧ m0 = 0 then 0 else 1)) ∧
    (d ≤ 0 → h ≤ 0 → mi ≤ 0 → se ≤ 0 → ¬(d = 0 ∧ h = 0 ∧ mi = 0 ∧ se = 0) →
      compare_relativedelta ⟨0, 0, d, h, mi, se, m0⟩ Relativedelta.zero = -1) := by
  constructor
  · intro h1 h2 h3 h4 h5
    rcases h1.lt_or_eq with hd | hd
    · have hc : compare_relativedelta ⟨0, 0, d, h, mi, se, m0⟩ Relativedelta.zero = 1 := by
        simp [compare_relativedelta, Relativedelta.zero, hd, (by omega : ¬d < (0 : Int))]
        omega
      rw [hc, if_neg (by omega)]
    · obtain rfl := hd.symm
      rcases h2.lt_or_eq with hh | hh
      · have hc : compare_relativedelta ⟨0, 0, 0, h, mi, se, m0⟩ Relativedelta.zero = 1 := by
          simp [compare_relativedelta, Relativedelta.zero, hh, (by omega : ¬h < (0 : Int))]
          omega
        rw [hc, if_neg (by omega)]
      · obtain rfl := hh.symm
        rcases h3.lt_or_eq with hmi | hmi
        · have hc : compare_relativedelta ⟨0, 0, 0, 0, mi, se, m0⟩ Relativedelta.zero = 1 := by
            simp [compare_relativedelta, Relativedelta.zero, hmi, (by omega : ¬mi < (0 : Int))]
            omega
          rw [hc, if_neg (by omega)]
        · obtain rfl := hmi.symm
          rcases h4.lt_or_eq with hse | hse
          · have hc : compare_relativedelta ⟨0, 0, 0, 0, 0, se, m0⟩ Relativedelta.zero = 1 := by
              simp [compare_relativedelta, Relativedelta.zero, hse, (by omega : ¬se < (0 : Int))]
              omega
            rw [hc, if_neg (by omega)]
          · obtain rfl := hse.symm
            rcases h5.lt_or_eq with hm | hm
            · have hc : compare_relativedelta ⟨0, 0, 0, 0, 0, 0, m0⟩ Relativedelta.zero = 1 := by
                simp [compare_relativedelta, Relativedelta.zero, hm, (by omega : ¬m0 < (0 : Int))]
                omega
              rw [hc, if_neg (by omega)]
            · obtain rfl := hm.symm
              rw [if_pos (by omega)]
              decide
  · intro h1 h2 h3 h4 hne
    rcases h1.lt_or_eq with hd | hd
    · simp [compare_relativedelta, Relativedelta.zero, hd]
    · obtain rfl := hd
      rcases h2.lt_or_eq with hh | hh
      · simp [compare_relativedelta, Relativedelta.zero, hh]
      · obtain rfl := hh
        rcases h3.lt_or_eq with hmi | hmi
        · simp [compare_relativedelta, Relativedelta.zero, hmi]
        · obtain rfl := hmi
          rcases h4.lt_or_eq with hse | hse
          · simp [compare_relativedelta, Relativedelta.zero, hse]
          · obtain rfl := hse
            exact absurd ⟨rfl, rfl, rfl, rfl⟩ hne

/-- Case analysis of `_compare_timedelta(step, 0)` over the four sign regions
of the step: exactly zero for the zero step; positive for positive steps;
ALSO positive for negative sub-second steps (the conversion through
`int(total_seconds())` and `.microseconds` mangles them); negative exactly
for steps of at most -1 second. -/
theorem compare_timedelta_cases (u : Int) :
    (u = 0 → compare_timedelta ⟨u⟩ 0 = 0) ∧
    (0 < u → compare_timedelta ⟨u⟩ 0 = 1) ∧
    (-1000000 < u → u < 0 → compare_timedelta ⟨u⟩ 0 = 1) ∧
    (u ≤ -1000000 → compare_timedelta ⟨u⟩ 0 = -1) := by
  have hemod : u.emod 1000000 = u % 1000000 := rfl
  have hm0 : (0 : Int) ≤ u.emod 1000000 := Int.emod_nonneg u (by norm_num)
  have hm1 : u.emod 1000000 ≤ 999999 := by
    have := Int.emod_lt_of_pos u (show (0 : Int) < 1000000 by norm_num)
    omega
  have hz : rdFix { Relativedelta.zero with seconds := (0 : Int) } = Relativedelta.zero := by
    decide
  have hcmp : compare_timedelta ⟨u⟩ 0 =
      compare_relativedelta
        ⟨0, 0,
         (carryFix (carryFix (carryFix (u.tdiv 1000000) 59 60).2 59 60).2 23 24).2,
         (carryFix (carryFix (carryFix (u.tdiv 1000000) 59 60).2 59 60).2 23 24).1,
         (carryFix (carryFix (u.tdiv 1000000) 59 60).2 59 60).1,
         (carryFix (u.tdiv 1000000) 59 60).1,
         u.emod 1000000⟩ Relativedelta.zero := by
    unfold compare_timedelta Timedelta.toNormRd Timedelta.intTotalSeconds Timedelta.microseconds
    rw [hz, toNormRd_fields (u.tdiv 1000000) (u.emod 1000000) hm0 hm1]
  obtain ⟨c1id, c1p, c1n⟩ := carryFix_spec (u.tdiv 1000000) 59 60 (by norm_num)
  obtain ⟨c2id, c2p, c2n⟩ :=
    carryFix_spec (carryFix (u.tdiv 1000000) 59 60).2 59 60 (by norm_num)
  obtain ⟨c3id, c3p, c3n⟩ :=
    carryFix_spec (carryFix (carryFix (u.tdiv 1000000) 59 60).2 59 60).2 23 24 (by norm_num)
  obtain ⟨cfp, cfn⟩ := compare_fields_zero
    (carryFix (carryFix (carryFix (u.tdiv 1000000) 59 60).2 59 60).2 23 24).2
    (carryFix (carryFix (carryFix (u.tdiv 1000000) 59 60).2 59 60).2 23 24).1
    (carryFix (carryFix (u.tdiv 1000000) 59 60).2 59 60).1
    (carryFix (u.tdiv 1000000) 59 60).1
    (u.emod 1000000)
  refine ⟨?_, ?_, ?_, ?_⟩
  · intro hu
    subst hu
    decide
  · intro hu
    have htd : u.tdiv 1000000 = u / 1000000 := Int.tdiv_eq_ediv (by omega) (by norm_num)
    have huid : u.tdiv 1000000 * 1000000 + u.emod 1000000 = u := by
      rw [htd, hemod]
      omega
    have hs0 : 0 ≤ u.tdiv 1000000 := by omega
    obtain ⟨hse, hr1⟩ := c1p hs0
    obtain ⟨hmi, hr2⟩ := c2p hr1
    obtain ⟨hh, hd⟩ := c3p hr2
    rw [hcmp, cfp hd hh hmi hse hm0]
    rw [if_neg]
    rintro ⟨h1, h2, h3, h4, h5⟩
    omega
  · intro hlo hhi
    have hneg : u.tdiv 1000000 = -((-u).tdiv 1000000) := by
      simpa using Int.neg_tdiv (-u) (1000000 : Int)
    have htd2 : (-u).tdiv 1000000 = (-u) / 1000000 :=
      Int.tdiv_eq_ediv (by omega) (by norm_num)
    have hzero : (-u) / 1000000 = 0 := Int.ediv_eq_zero_of_lt (by omega) (by omega)
    have hs0 : u.tdiv 1000000 = 0 := by omega
    have hm2 : u.emod 1000000 = u + 1000000 := by
      rw [hemod]
      omega
    rw [hcmp, hs0]
    have hc1 : carryFix (0 : Int) 59 60 = (0, 0) := by decide
    have hc2 : carryFix (0 : Int) 23 24 = (0, 0) := by decide
    rw [hc1]
    dsimp only
    rw [hc1]
    dsimp only
    rw [hc2]
    dsimp only
    rw [(compare_fields_zero 0 0 0 0 (u.emod 1000000)).1 le_rfl le_rfl le_rfl le_rfl hm0]
    rw [if_neg]
    rintro ⟨-, -, -, -, h5⟩
    omega
  · intro hu
    have hneg : u.tdiv 1000000 = -((-u).tdiv 1000000) := by
      simpa using Int.neg_tdiv (-u) (1000000 : Int)
    have htd2 : (-u).tdiv 1000000 = (-u) / 1000000 :=
      Int.tdiv_eq_ediv (by omega) (by norm_num)
    have hone : 1 ≤ (-u) / 1000000 := by
      rw [Int.le_ediv_iff_mul_le (by norm_num)]
      omega
    have hs0 : u.tdiv 1000000 ≤ -1 := by omega
    obtain ⟨hse, hr1⟩ := c1n (by omega)
    obtain ⟨hmi, hr2⟩ := c2n hr1
    obtain ⟨hh, hd⟩ := c3n hr2
    refine Eq.trans hcmp (cfn hd hh hmi hse ?_)
    rintro ⟨h1, h2, h3, h4⟩
    omega

/-- Claim C4 counterexample: a set, forward (start < end) range whose two
aware endpoints merely differ in tzinfo offset.  `validate_time_inversion`
raises the timezone-mismatch `ValueError` — not the inversion error — yet
`range` classifies the range as inverted and rejects a positive step with
"expect less than 0", refuting "classifies the range as inverted exactly when
validate raises the \"inverted\" error". -/
theorem C4_counterexample :
    (DateTimeRange.make (some ⟨0, some 0⟩) (some ⟨1000000000, some 3600⟩)
      none none).validate_time_inversion =
      .error (.valueError ("timezone mismatch: start=" ++ tzStr (some 0) ++ ", end=" ++
        tzStr (some 3600))) ∧
    compare_delta (Delta.td ⟨1000000⟩) 0 = 1 ∧
    (DateTimeRange.make (some ⟨0, some 0⟩) (some ⟨1000000000, some 3600⟩)
      none none).rangeRun (Delta.td ⟨1000000⟩) 5 =
      some (.error (.valueError ("invalid step: expect less than 0, actual=" ++
        deltaStr (Delta.td ⟨1000000⟩)))) := by
  refine ⟨rfl, by decide, rfl⟩

/-- Claim C4 (amended): `range(step)` raises a value error for every step —
fixed-duration or calendar-relative — whose normalized magnitude compares
equal to zero (for a fixed-duration step this means exactly the zero
duration; a calendar step such as days=1, hours=-24 also normalizes to
zero), before any validation of the range; it classifies the range as
inverted exactly when `validate_time_inversion` raises ANY `ValueError`
(inversion or timezone mismatch), while a `TypeError` (unset endpoints)
propagates; a forward-classified range with a step comparing negative, and an
inverted-classified range with a step comparing positive, each raise a value
error citing the step. -/
theorem C4_range_errors :
    (∀ (r : DateTimeRange) (step : Delta) (fuel : Nat),
       compare_delta step 0 = 0 →
       r.rangeRun step fuel = some (.error (.valueError "step must be not zero"))) ∧
    (∀ u : Timedelta, compare_delta (Delta.td u) 0 = 0 ↔ u.usec = 0) ∧
    compare_delta (Delta.rd ⟨0, 0, 1, -24, 0, 0, 0⟩) 0 = 0 ∧
    (∀ (r : DateTimeRange) (step : Delta) (fuel : Nat) (m : String),
       compare_delta step 0 ≠ 0 →
       r.validate_time_inversion = .error (.typeError m) →
       r.rangeRun step fuel = some (.error (.typeError m))) ∧
    (∀ (r : DateTimeRange) (step : Delta) (fuel : Nat),
       compare_delta step 0 < 0 →
       r.validate_time_inversion = .ok () →
       r.rangeRun step fuel = some (.error (.valueError
         ("invalid step: expect greater than 0, actual=" ++ deltaStr step)))) ∧
    (∀ (r : DateTimeRange) (step : Delta) (fuel : Nat) (m : String),
       0 < compare_delta step 0 →
       r.validate_time_inversion = .error (.valueError m) →
       r.rangeRun step fuel = some (.error (.valueError
         ("invalid step: expect less than 0, actual=" ++ deltaStr step)))) := by
  refine ⟨?_, ?_, by decide, ?_, ?_, ?_⟩
  · intro r step fuel hc
    unfold DateTimeRange.rangeRun
    rw [if_pos hc]
  · intro u
    obtain ⟨v⟩ := u
    show compare_timedelta ⟨v⟩ 0 = 0 ↔ v = 0
    obtain ⟨z, p, sp, n⟩ := compare_timedelta_cases v
    constructor
    · intro hc
      by_contra hne
      rcases lt_trichotomy v 0 with hlt | he2 | hgt
      · rcases le_or_lt v (-1000000) with hle2 | hgt2
        · rw [n hle2] at hc
          cases hc
        · rw [sp hgt2 hlt] at hc
          cases hc
      · exact hne he2
      · rw [p hgt] at hc
        cases hc
    · intro hv
      exact z hv
  · intro r step fuel m hc hval
    unfold DateTimeRange.rangeRun
    rw [if_neg hc, hval]
  · intro r step fuel hc hval
    obtain ⟨s, e, hs, he, -, -⟩ := (validate_ok_iff r).mp hval
    unfold DateTimeRange.rangeRun
    rw [if_neg (by omega), hval]
    dsimp only
    rw [hs, he]
    dsimp only
    rw [if_pos hc]
  · intro r step fuel m hc hval
    have hset : ∃ s e : DTime, r.start_datetime = some s ∧ r.end_datetime = some e := by
      rcases h1 : r.start_datetime with _ | s <;> rcases h2 : r.end_datetime with _ | e
      · rw [DateTimeRange.validate_time_inversion, h1] at hval
        cases hval
      · rw [DateTimeRange.validate_time_inversion] at hval
        rw [h1] at hval
        cases hval
      · rw [DateTimeRange.validate_time_inversion] at hval
        rw [h1, h2] at hval
        cases hval
      · exact ⟨s, e, rfl, rfl⟩
    obtain ⟨s, e, hs, he⟩ := hset
    unfold DateTimeRange.rangeRun
    rw [if_neg (by omega), hval]
    dsimp only
    rw [hs, he]
    dsimp only
    rw [if_pos (show compare_delta step 0 > 0 by omega)]

/-- Claim C4 witness: the amended theorem instantiated at a zero duration step
and a zero-normalizing calendar step (days=1, hours=-24) on an unset range, a
type-error propagation, a forward range with a comparator-negative step, and
an inverted range with a positive step. -/
theorem C4_range_errors_witness :
    (DateTimeRange.make none none none none).rangeRun (Delta.td ⟨0⟩) 3 =
      some (.error (.valueError "step must be not zero")) ∧
    (DateTimeRange.make none none none none).rangeRun (Delta.rd ⟨0, 0, 1, -24, 0, 0, 0⟩) 3 =
      some (.error (.valueError "step must be not zero")) ∧
    (compare_delta (Delta.td ⟨0⟩) 0 = 0 ↔ (Timedelta.mk 0).usec = 0) ∧
    (DateTimeRange.make none (some ⟨5, none⟩) none none).rangeRun (Delta.td ⟨7⟩) 3 =
      some (.error (.typeError "")) ∧
    (DateTimeRange.make (some ⟨0, none⟩) (some ⟨5, none⟩) none none).rangeRun
        (Delta.td ⟨-2000000⟩) 3 =
      some (.error (.valueError ("invalid step: expect greater than 0, actual=" ++
        deltaStr (Delta.td ⟨-2000000⟩)))) ∧
    (DateTimeRange.make (some ⟨5, none⟩) (some ⟨0, none⟩) none none).rangeRun
        (Delta.td ⟨2000000⟩) 3 =
      some (.error (.valueError ("invalid step: expect less than 0, actual=" ++
        deltaStr (Delta.td ⟨2000000⟩)))) := by
  obtain ⟨hz, hiff, -, ht, hf, hi⟩ := C4_range_errors
  refine ⟨hz _ (Delta.td ⟨0⟩) 3 (by decide), hz _ (Delta.rd ⟨0, 0, 1, -24, 0, 0, 0⟩) 3 (by decide),
    hiff ⟨0⟩, ht _ (Delta.td ⟨7⟩) 3 "" (by decide) rfl,
    hf _ (Delta.td ⟨-2000000⟩) 3 (by decide) (by rfl), hi _ (Delta.td ⟨2000000⟩) 3 _ (by decide)
      (by rfl)⟩

/-- Applying a step of either kind never changes the tzinfo of a datetime. -/
theorem dtAddDelta_tz (t : DTime) (u : Delta) : (dtAddDelta t u).tz = t.tz := by
  cases u <;> rfl

/-- Iterating a fixed-duration step application is the arithmetic
progression. -/
theorem dtAddDelta_td_iterate (u : Timedelta) (s : DTime) (i : Nat) :
    (fun t => dtAddDelta t (Delta.td u))^[i] s = ⟨s.val + i * u.usec, s.tz⟩ := by
  induction i with
  | zero =>
      cases s
      simp
  | succ j ihj =>
      rw [Function.iterate_succ_apply', ihj]
      show (⟨s.val + (j : Int) * u.usec + u.usec, s.tz⟩ : DTime) = _
      have hcast : ((j + 1 : Nat) : Int) = (j : Int) + 1 := by push_cast; ring
      rw [hcast]
      simp only [DTime.mk.injEq]
      exact ⟨by ring, trivial⟩

/-- The forward loop, run with a step application (of either kind) that
strictly advances the instant and preserves the tzinfo, on
awareness-compatible endpoints: terminates within some fuel and yields
exactly the iterated applications of the step, never past the boundary,
stopping before the first iterate that crosses it. -/
theorem rangeLoopFwd_spec :
    ∀ (B : Nat) (cur fin : DTime) (u : Delta),
      (∀ t : DTime, t.val < (dtAddDelta t u).val) →
      (∀ t : DTime, (dtAddDelta t u).tz = t.tz) →
      cur.aware = fin.aware → (fin.val - cur.val).toNat ≤ B →
      ∃ (n : Nat) (l : List DTime),
        rangeLoopFwd n cur fin u = some (.ok l) ∧
        (∀ i (h : i < l.length), l.get ⟨i, h⟩ = (fun t => dtAddDelta t u)^[i] cur) ∧
        (∀ d ∈ l, d.val ≤ fin.val) ∧
        fin.val < ((fun t => dtAddDelta t u)^[l.length] cur).val := by
  intro B
  induction B with
  | zero =>
      intro cur fin u hmono htz haw hB
      have hawd : (dtAddDelta cur u).aware = fin.aware := by
        unfold DTime.aware
        rw [htz cur]
        exact haw
      by_cases hle : cur.val ≤ fin.val
      · have hfin : fin.val = cur.val := by omega
        refine ⟨2, [cur], ?_, ?_, ?_, ?_⟩
        · show rangeLoopFwd 2 cur fin u = some (.ok [cur])
          unfold rangeLoopFwd
          rw [show dtLe cur fin = .ok true by simp [dtLe, haw, hle]]
          unfold rangeLoopFwd
          rw [show dtLe (dtAddDelta cur u) fin = .ok false by
            unfold dtLe
            rw [if_pos hawd]
            simp only [Except.ok.injEq, decide_eq_false_iff_not, not_le]
            have := hmono cur
            omega]
          rfl
        · intro i hi
          have hi0 : i = 0 := by simpa using hi
          subst hi0
          simp
        · intro d hd
          have hd2 : d = cur := by simpa using hd
          subst hd2
          omega
        · show fin.val < ((fun t => dtAddDelta t u)^[1] cur).val
          rw [Function.iterate_one]
          show fin.val < (dtAddDelta cur u).val
          have := hmono cur
          omega
      · refine ⟨1, [], ?_, ?_, ?_, ?_⟩
        · show rangeLoopFwd 1 cur fin u = some (.ok [])
          unfold rangeLoopFwd
          rw [show dtLe cur fin = .ok false by simp [dtLe, haw]; omega]
        · intro i hi
          simp at hi
        · intro d hd
          simp at hd
        · show fin.val < ((fun t => dtAddDelta t u)^[0] cur).val
          rw [Function.iterate_zero]
          show fin.val < cur.val
          omega
  | succ B ih =>
      intro cur fin u hmono htz haw hB
      have hawd : (dtAddDelta cur u).aware = fin.aware := by
        unfold DTime.aware
        rw [htz cur]
        exact haw
      by_cases hle : cur.val ≤ fin.val
      · obtain ⟨n, l, hrun, hidx, hbound, hcross⟩ :=
          ih (dtAddDelta cur u) fin u hmono htz hawd (by have := hmono cur; omega)
        refine ⟨n + 1, cur :: l, ?_, ?_, ?_, ?_⟩
        · show rangeLoopFwd (n + 1) cur fin u = some (.ok (cur :: l))
          unfold rangeLoopFwd
          rw [show dtLe cur fin = .ok true by simp [dtLe, haw, hle], hrun]
          rfl
        · intro i hi
          cases i with
          | zero => simp
          | succ j =>
              have hj : j < l.length := by simpa using hi
              show l.get ⟨j, hj⟩ = _
              rw [hidx j hj]
              exact (Function.iterate_succ_apply _ _ _).symm
        · intro d hd
          rcases List.mem_cons.mp hd with rfl | hd2
          · omega
          · exact hbound d hd2
        · show fin.val < ((fun t => dtAddDelta t u)^[l.length + 1] cur).val
          rw [Function.iterate_succ_apply]
          exact hcross
      · refine ⟨1, [], ?_, ?_, ?_, ?_⟩
        · show rangeLoopFwd 1 cur fin u = some (.ok [])
          unfold rangeLoopFwd
          rw [show dtLe cur fin = .ok false by simp [dtLe, haw]; omega]
        · intro i hi
          simp at hi
        · intro d hd
          simp at hd
        · show fin.val < ((fun t => dtAddDelta t u)^[0] cur).val
          rw [Function.iterate_zero]
          show fin.val < cur.val
          omega

/-- The decreasing loop, run with a step application that strictly moves the
instant backwards and preserves the tzinfo: the mirror image of
`rangeLoopFwd_spec`. -/
theorem rangeLoopInv_spec :
    ∀ (B : Nat) (cur fin : DTime) (u : Delta),
      (∀ t : DTime, (dtAddDelta t u).val < t.val) →
      (∀ t : DTime, (dtAddDelta t u).tz = t.tz) →
      cur.aware = fin.aware → (cur.val - fin.val).toNat ≤ B →
      ∃ (n : Nat) (l : List DTime),
        rangeLoopInv n cur fin u = some (.ok l) ∧
        (∀ i (h : i < l.length), l.get ⟨i, h⟩ = (fun t => dtAddDelta t u)^[i] cur) ∧
        (∀ d ∈ l, fin.val ≤ d.val) ∧
        ((fun t => dtAddDelta t u)^[l.length] cur).val < fin.val := by
  intro B
  induction B with
  | zero =>
      intro cur fin u hmono htz haw hB
      have hawd : (dtAddDelta cur u).aware = fin.aware := by
        unfold DTime.aware
        rw [htz cur]
        exact haw
      by_cases hge : fin.val ≤ cur.val
      · have hfin : fin.val = cur.val := by omega
        refine ⟨2, [cur], ?_, ?_, ?_, ?_⟩
        · show rangeLoopInv 2 cur fin u = some (.ok [cur])
          unfold rangeLoopInv
          rw [show dtGe cur fin = .ok true by simp [dtGe, haw, hge]]
          unfold rangeLoopInv
          rw [show dtGe (dtAddDelta cur u) fin = .ok false by
            unfold dtGe
            rw [if_pos hawd]
            simp only [Except.ok.injEq, decide_eq_false_iff_not, ge_iff_le, not_le]
            have := hmono cur
            omega]
          rfl
        · intro i hi
          have hi0 : i = 0 := by simpa using hi
          subst hi0
          simp
        · intro d hd
          have hd2 : d = cur := by simpa using hd
          subst hd2
          omega
        · show ((fun t => dtAddDelta t u)^[1] cur).val < fin.val
          rw [Function.iterate_one]
          show (dtAddDelta cur u).val < fin.val
          have := hmono cur
          omega
      · refine ⟨1, [], ?_, ?_, ?_, ?_⟩
        · show rangeLoopInv 1 cur fin u = some (.ok [])
          unfold rangeLoopInv
          rw [show dtGe cur fin = .ok false by simp [dtGe, haw]; omega]
        · intro i hi
          simp at hi
        · intro d hd
          simp at hd
        · show ((fun t => dtAddDelta t u)^[0] cur).val < fin.val
          rw [Function.iterate_zero]
          show cur.val < fin.val
          omega
  | succ B ih =>
      intro cur fin u hmono htz haw hB
      have hawd : (dtAddDelta cur u).aware = fin.aware := by
        unfold DTime.aware
        rw [htz cur]
        exact haw
      by_cases hge : fin.val ≤ cur.val
      · obtain ⟨n, l, hrun, hidx, hbound, hcross⟩ :=
          ih (dtAddDelta cur u) fin u hmono htz hawd (by have := hmono cur; omega)
        refine ⟨n + 1, cur :: l, ?_, ?_, ?_, ?_⟩
        · show rangeLoopInv (n + 1) cur fin u = some (.ok (cur :: l))
          unfold rangeLoopInv
          rw [show dtGe cur fin = .ok true by simp [dtGe, haw, hge], hrun]
          rfl
        · intro i hi
          cases i with
          | zero => simp
          | succ j =>
              have hj : j < l.length := by simpa using hi
              show l.get ⟨j, hj⟩ = _
              rw [hidx j hj]
              exact (Function.iterate_succ_apply _ _ _).symm
        · intro d hd
          rcases List.mem_cons.mp hd with rfl | hd2
          · omega
          · exact hbound d hd2
        · show ((fun t => dtAddDelta t u)^[l.length + 1] cur).val < fin.val
          rw [Function.iterate_succ_apply]
          exact hcross
      · refine ⟨1, [], ?_, ?_, ?_, ?_⟩
        · show rangeLoopInv 1 cur fin u = some (.ok [])
          unfold rangeLoopInv
          rw [show dtGe cur fin = .ok false by simp [dtGe, haw]; omega]
        · intro i hi
          simp at hi
        · intro d hd
          simp at hd
        · show ((fun t => dtAddDelta t u)^[0] cur).val < fin.val
          rw [Function.iterate_zero]
          show cur.val < fin.val
          omega

/-- Partial correctness of the forward loop for any step of either kind: any
successful run, at any fuel, yields exactly the prefix of iterated step
applications that stay on the closed side of the boundary, with the next
iterate crossing it; the first element is the starting cursor whenever it is
within the boundary. -/
theorem rangeLoopFwd_run :
    ∀ (n : Nat) (cur fin : DTime) (u : Delta) (l : List DTime),
      rangeLoopFwd n cur fin u = some (.ok l) →
      (∀ i (h : i < l.length), l.get ⟨i, h⟩ = (fun t => dtAddDelta t u)^[i] cur) ∧
      (∀ d ∈ l, d.val ≤ fin.val) ∧
      fin.val < ((fun t => dtAddDelta t u)^[l.length] cur).val ∧
      (cur.val ≤ fin.val → cur.aware = fin.aware → 0 < l.length) := by
  intro n
  induction n with
  | zero =>
      intro cur fin u l h
      cases h
  | succ n ih =>
      intro cur fin u l h
      unfold rangeLoopFwd at h
      cases h1 : dtLe cur fin with
      | error e =>
          rw [h1] at h
          have h2 : (some (Except.error e) : Option (Except PyErr (List DTime))) =
            some (Except.ok l) := h
          simp at h2
      | ok b =>
          cases b with
          | false =>
              rw [h1] at h
              have h2 : (some (Except.ok ([] : List DTime)) :
                Option (Except PyErr (List DTime))) = some (Except.ok l) := h
              have hl : ([] : List DTime) = l := Except.ok.inj (Option.some.inj h2)
              subst hl
              have hlt : fin.val < cur.val := by
                unfold dtLe at h1
                by_cases haw : cur.aware = fin.aware
                · rw [if_pos haw] at h1
                  have h3 := Except.ok.inj h1
                  simp only [decide_eq_false_iff_not, not_le] at h3
                  exact h3
                · rw [if_neg haw] at h1
                  cases h1
              refine ⟨?_, ?_, ?_, ?_⟩
              · intro i hi
                simp at hi
              · intro d hd
                simp at hd
              · show fin.val < ((fun t => dtAddDelta t u)^[0] cur).val
                rw [Function.iterate_zero]
                exact hlt
              · intro hle2 _
                omega
          | true =>
              rw [h1] at h
              cases hin : rangeLoopFwd n (dtAddDelta cur u) fin u with
              | none =>
                  rw [hin] at h
                  have h2 : (none : Option (Except PyErr (List DTime))) =
                    some (Except.ok l) := h
                  simp at h2
              | some x =>
                  rw [hin] at h
                  cases x with
                  | error e2 =>
                      have h2 : (some (Except.error e2) :
                        Option (Except PyErr (List DTime))) = some (Except.ok l) := h
                      simp at h2
                  | ok l2 =>
                      have h2 : (some (Except.ok (cur :: l2)) :
                        Option (Except PyErr (List DTime))) = some (Except.ok l) := h
                      have hl : cur :: l2 = l := Except.ok.inj (Option.some.inj h2)
                      subst hl
                      obtain ⟨hidx, hbound, hcross, -⟩ := ih (dtAddDelta cur u) fin u l2 hin
                      have hcf : cur.val ≤ fin.val := by
                        unfold dtLe at h1
                        by_cases haw : cur.aware = fin.aware
                        · rw [if_pos haw] at h1
                          have h3 := Except.ok.inj h1
                          simp only [decide_eq_true_eq] at h3
                          exact h3
                        · rw [if_neg haw] at h1
                          cases h1
                      refine ⟨?_, ?_, ?_, ?_⟩
                      · intro i hi
                        cases i with
                        | zero => simp
                        | succ j =>
                            have hj : j < l2.length := by simpa using hi
                            show l2.get ⟨j, hj⟩ = _
                            rw [hidx j hj]
                            exact (Function.iterate_succ_apply _ _ _).symm
                      · intro d hd
                        rcases List.mem_cons.mp hd with rfl | hd2
                        · exact hcf
                        · exact hbound d hd2
                      · show fin.val < ((fun t => dtAddDelta t u)^[l2.length + 1] cur).val
                        rw [Function.iterate_succ_apply]
                        exact hcross
                      · intro _ _
                        simp

/-- Partial correctness of the decreasing loop: mirror image of
`rangeLoopFwd_run`. -/
theorem rangeLoopInv_run :
    ∀ (n : Nat) (cur fin : DTime) (u : Delta) (l : List DTime),
      rangeLoopInv n cur fin u = some (.ok l) →
      (∀ i (h : i < l.length), l.get ⟨i, h⟩ = (fun t => dtAddDelta t u)^[i] cur) ∧
      (∀ d ∈ l, fin.val ≤ d.val) ∧
      ((fun t => dtAddDelta t u)^[l.length] cur).val < fin.val ∧
      (fin.val ≤ cur.val → cur.aware = fin.aware → 0 < l.length) := by
  intro n
  induction n with
  | zero =>
      intro cur fin u l h
      cases h
  | succ n ih =>
      intro cur fin u l h
      unfold rangeLoopInv at h
      cases h1 : dtGe cur fin with
      | error e =>
          rw [h1] at h
          have h2 : (some (Except.error e) : Option (Except PyErr (List DTime))) =
            some (Except.ok l) := h
          simp at h2
      | ok b =>
          cases b with
          | false =>
              rw [h1] at h
              have h2 : (some (Except.ok ([] : List DTime)) :
                Option (Except PyErr (List DTime))) = some (Except.ok l) := h
              have hl : ([] : List DTime) = l := Except.ok.inj (Option.some.inj h2)
              subst hl
              have hlt : cur.val < fin.val := by
                unfold dtGe at h1
                by_cases haw : cur.aware = fin.aware
                · rw [if_pos haw] at h1
                  have h3 := Except.ok.inj h1
                  simp only [decide_eq_false_iff_not, ge_iff_le, not_le] at h3
                  exact h3
                · rw [if_neg haw] at h1
                  cases h1
              refine ⟨?_, ?_, ?_, ?_⟩
              · intro i hi
                simp at hi
              · intro d hd
                simp at hd
              · show ((fun t => dtAddDelta t u)^[0] cur).val < fin.val
                rw [Function.iterate_zero]
                exact hlt
              · intro hle2 _
                omega
          | true =>
              rw [h1] at h
              cases hin : rangeLoopInv n (dtAddDelta cur u) fin u with
              | none =>
                  rw [hin] at h
                  have h2 : (none : Option (Except PyErr (List DTime))) =
                    some (Except.ok l) := h
                  simp at h2
              | some x =>
                  rw [hin] at h
                  cases x with
                  | error e2 =>
                      have h2 : (some (Except.error e2) :
                        Option (Except PyErr (List DTime))) = some (Except.ok l) := h
                      simp at h2
                  | ok l2 =>
                      have h2 : (some (Except.ok (cur :: l2)) :
                        Option (Except PyErr (List DTime))) = some (Except.ok l) := h
                      have hl : cur :: l2 = l := Except.ok.inj (Option.some.inj h2)
                      subst hl
                      obtain ⟨hidx, hbound, hcross, -⟩ := ih (dtAddDelta cur u) fin u l2 hin
                      have hcf : fin.val ≤ cur.val := by
                        unfold dtGe at h1
                        by_cases haw : cur.aware = fin.aware
                        · rw [if_pos haw] at h1
                          have h3 := Except.ok.inj h1
                          simp only [decide_eq_true_eq, ge_iff_le] at h3
                          exact h3
                        · rw [if_neg haw] at h1
                          cases h1
                      refine ⟨?_, ?_, ?_, ?_⟩
                      · intro i hi
                        cases i with
                        | zero => simp
                        | succ j =>
                            have hj : j < l2.length := by simpa using hi
                            show l2.get ⟨j, hj⟩ = _
                            rw [hidx j hj]
                            exact (Function.iterate_succ_apply _ _ _).symm
                      · intro d hd
                        rcases List.mem_cons.mp hd with rfl | hd2
                        · exact hcf
                        · exact hbound d hd2
                      · show ((fun t => dtAddDelta t u)^[l2.length + 1] cur).val < fin.val
                        rw [Function.iterate_succ_apply]
                        exact hcross
                      · intro _ _
                        simp

/-- Claim C3 counterexample: a set range with start < end (a forward range)
whose aware endpoints carry different tzinfo offsets.  With a positive step —
the correct sign for a forward range, and positive under the normalized
comparison as well — `range` raises a `ValueError` instead of yielding the
sequence starting at `start`, because the timezone-mismatch `ValueError` from
validation makes it classify the range as inverted. -/
theorem C3_counterexample :
    (DateTimeRange.make (some ⟨0, some 0⟩) (some ⟨1000000000, some 3600⟩) none none).is_set =
      true ∧
    (0 : Int) < 1000000000 ∧
    (0 : Int) < (Timedelta.mk 1000000).usec ∧
    compare_delta (Delta.td ⟨1000000⟩) 0 = 1 ∧
    (DateTimeRange.make (some ⟨0, some 0⟩) (some ⟨1000000000, some 3600⟩)
      none none).rangeRun (Delta.td ⟨1000000⟩) 1000 =
      some (.error (.valueError ("invalid step: expect less than 0, actual=" ++
        deltaStr (Delta.td ⟨1000000⟩)))) := by
  refine ⟨rfl, by norm_num, by norm_num, by decide, rfl⟩

/-- Claim C3 (amended): for every set range whose endpoints share the same
tzinfo and every non-zero step — fixed-duration or calendar-relative — of the
correct sign under the normalized comparison, `range(step)` repeatedly yields
the current instant and then advances it by `step`: every terminating run
yields exactly the iterated applications start, start+step, start+step+step,
..., continuing while the current instant is on the closed side of `end`,
never yielding an instant past the boundary, with first element always
`start`; the run moreover terminates whenever each application of the step
strictly advances the instant in the iteration direction — automatic for a
fixed-duration step of positive actual duration on a forward range and for a
comparator-negative (at most -1 second) fixed-duration step on an inverted
range, but an extra condition in general, since the comparison sign alone
does not guarantee it (sub-second negative durations and mixed-sign calendar
steps compare positive yet can move the instant backwards). -/
theorem C3_range_sequence :
    ∀ (r : DateTimeRange) (step : Delta) (s e : DTime),
      r.start_datetime = some s → r.end_datetime = some e →
      ((∀ u : Timedelta, step = Delta.td u → r.validate_time_inversion = .ok () →
          0 < u.usec →
        ∃ (n : Nat) (l : List DTime), r.rangeRun step n = some (.ok l) ∧
          0 < l.length ∧ l.head? = some s ∧
          (∀ i (h : i < l.length), l.get ⟨i, h⟩ = ⟨s.val + i * u.usec, s.tz⟩) ∧
          (∀ d ∈ l, d.val ≤ e.val) ∧ e.val < s.val + l.length * u.usec) ∧
       (∀ u : Timedelta, step = Delta.td u → s.tz = e.tz → e.val < s.val →
          compare_delta step 0 < 0 →
        ∃ (n : Nat) (l : List DTime), r.rangeRun step n = some (.ok l) ∧
          0 < l.length ∧ l.head? = some s ∧
          (∀ i (h : i < l.length), l.get ⟨i, h⟩ = ⟨s.val + i * u.usec, s.tz⟩) ∧
          (∀ d ∈ l, e.val ≤ d.val) ∧ s.val + l.length * u.usec < e.val) ∧
       (r.validate_time_inversion = .ok () → 0 < compare_delta step 0 →
        ∀ (n : Nat) (l : List DTime), r.rangeRun step n = some (.ok l) →
          0 < l.length ∧ l.head? = some s ∧
          (∀ i (h : i < l.length), l.get ⟨i, h⟩ = (fun t => dtAddDelta t step)^[i] s) ∧
          (∀ d ∈ l, d.val ≤ e.val) ∧
          e.val < ((fun t => dtAddDelta t step)^[l.length] s).val) ∧
       (r.validate_time_inversion = .ok () → 0 < compare_delta step 0 →
        (∀ t : DTime, t.val < (dtAddDelta t step).val) →
        ∃ (n : Nat) (l : List DTime), r.rangeRun step n = some (.ok l)) ∧
       (s.tz = e.tz → e.val < s.val → compare_delta step 0 < 0 →
        ∀ (n : Nat) (l : List DTime), r.rangeRun step n = some (.ok l) →
          0 < l.length ∧ l.head? = some s ∧
          (∀ i (h : i < l.length), l.get ⟨i, h⟩ = (fun t => dtAddDelta t step)^[i] s) ∧
          (∀ d ∈ l, e.val ≤ d.val) ∧
          ((fun t => dtAddDelta t step)^[l.length] s).val < e.val) ∧
       (s.tz = e.tz → e.val < s.val → compare_delta step 0 < 0 →
        (∀ t : DTime, (dtAddDelta t step).val < t.val) →
        ∃ (n : Nat) (l : List DTime), r.rangeRun step n = some (.ok l))) := by
  intro r step s e hs he
  refine ⟨?_, ?_, ?_, ?_, ?_, ?_⟩
  · intro u hstep hval hu
    subst hstep
    obtain ⟨uu⟩ := u
    have hu2 : 0 < uu := hu
    obtain ⟨s2, e2, hs2, he2, htz, hle⟩ := (validate_ok_iff r).mp hval
    obtain rfl : s = s2 := by rw [hs] at hs2; exact Option.some.inj hs2
    obtain rfl : e = e2 := by rw [he] at he2; exact Option.some.inj he2
    have hc1 : compare_delta (Delta.td ⟨uu⟩) 0 = 1 :=
      (compare_timedelta_cases uu).2.1 hu2
    have hmono : ∀ t : DTime, t.val < (dtAddDelta t (Delta.td ⟨uu⟩)).val := by
      intro t
      show t.val < t.val + uu
      omega
    obtain ⟨n, l, hrun, hidx, hbound, hcross⟩ :=
      rangeLoopFwd_spec (e.val - s.val).toNat s e (Delta.td ⟨uu⟩) hmono
        (fun t => dtAddDelta_tz t _) (aware_of_tz_eq htz) le_rfl
    have hhl : 0 < l.length ∧ l.head? = some s := by
      rcases l with _ | ⟨a, t2⟩
      · exfalso
        have h2 := hcross
        simp at h2
        omega
      · refine ⟨by simp, ?_⟩
        have h0 := hidx 0 (by simp)
        simp at h0
        simp [h0]
    refine ⟨n, l, ?_, hhl.1, hhl.2, ?_, hbound, ?_⟩
    · unfold DateTimeRange.rangeRun
      rw [if_neg (by omega), hval]
      dsimp only
      rw [hs, he]
      dsimp only
      rw [if_neg (by omega)]
      exact hrun
    · intro i h
      rw [hidx i h]
      exact dtAddDelta_td_iterate ⟨uu⟩ s i
    · have h2 := hcross
      rw [dtAddDelta_td_iterate] at h2
      exact h2
  · intro u hstep htz hlt hcneg
    subst hstep
    obtain ⟨uu⟩ := u
    have hcn2 : compare_timedelta ⟨uu⟩ 0 < 0 := hcneg
    have huun : uu < 0 := by
      rcases lt_trichotomy uu 0 with h1 | h1 | h1
      · exact h1
      · rw [(compare_timedelta_cases uu).1 h1] at hcn2
        cases hcn2
      · rw [(compare_timedelta_cases uu).2.1 h1] at hcn2
        cases hcn2
    have hval : r.validate_time_inversion =
        .error (.valueError ("time inversion found: " ++ dtStr s ++ " > " ++ dtStr e)) := by
      simp [DateTimeRange.validate_time_inversion, hs, he, htz, hlt]
    have hmono : ∀ t : DTime, (dtAddDelta t (Delta.td ⟨uu⟩)).val < t.val := by
      intro t
      show t.val + uu < t.val
      omega
    obtain ⟨n, l, hrun, hidx, hbound, hcross⟩ :=
      rangeLoopInv_spec (s.val - e.val).toNat s e (Delta.td ⟨uu⟩) hmono
        (fun t => dtAddDelta_tz t _) (aware_of_tz_eq htz) le_rfl
    have hhl : 0 < l.length ∧ l.head? = some s := by
      rcases l with _ | ⟨a, t2⟩
      · exfalso
        have h2 := hcross
        simp at h2
        omega
      · refine ⟨by simp, ?_⟩
        have h0 := hidx 0 (by simp)
        simp at h0
        simp [h0]
    refine ⟨n, l, ?_, hhl.1, hhl.2, ?_, hbound, ?_⟩
    · unfold DateTimeRange.rangeRun
      rw [if_neg (by omega), hval]
      dsimp only
      rw [hs, he]
      dsimp only
      rw [if_neg (by omega)]
      exact hrun
    · intro i h
      rw [hidx i h]
      exact dtAddDelta_td_iterate ⟨uu⟩ s i
    · have h2 := hcross
      rw [dtAddDelta_td_iterate] at h2
      exact h2
  · intro hval hcpos n l hrunRR
    obtain ⟨s2, e2, hs2, he2, htz, hle⟩ := (validate_ok_iff r).mp hval
    obtain rfl : s = s2 := by rw [hs] at hs2; exact Option.some.inj hs2
    obtain rfl : e = e2 := by rw [he] at he2; exact Option.some.inj he2
    unfold DateTimeRange.rangeRun at hrunRR
    rw [if_neg (by omega), hval] at hrunRR
    dsimp only at hrunRR
    rw [hs, he] at hrunRR
    dsimp only at hrunRR
    rw [if_neg (by omega)] at hrunRR
    obtain ⟨hidx, hbound, hcross, hlen0⟩ := rangeLoopFwd_run n s e step l hrunRR
    have hlen : 0 < l.length := hlen0 hle (aware_of_tz_eq htz)
    refine ⟨hlen, ?_, hidx, hbound, hcross⟩
    rcases l with _ | ⟨a, t2⟩
    · simp at hlen
    · have h0 := hidx 0 (by simp)
      simp at h0
      simp [h0]
  · intro hval hcpos hmono
    obtain ⟨s2, e2, hs2, he2, htz, hle⟩ := (validate_ok_iff r).mp hval
    obtain rfl : s = s2 := by rw [hs] at hs2; exact Option.some.inj hs2
    obtain rfl : e = e2 := by rw [he] at he2; exact Option.some.inj he2
    obtain ⟨n, l, hrun, -, -, -⟩ :=
      rangeLoopFwd_spec (e.val - s.val).toNat s e step hmono
        (fun t => dtAddDelta_tz t step) (aware_of_tz_eq htz) le_rfl
    refine ⟨n, l, ?_⟩
    unfold DateTimeRange.rangeRun
    rw [if_neg (by omega), hval]
    dsimp only
    rw [hs, he]
    dsimp only
    rw [if_neg (by omega)]
    exact hrun
  · intro htz hlt hcneg n l hrunRR
    have hval : r.validate_time_inversion =
        .error (.valueError ("time inversion found: " ++ dtStr s ++ " > " ++ dtStr e)) := by
      simp [DateTimeRange.validate_time_inversion, hs, he, htz, hlt]
    unfold DateTimeRange.rangeRun at hrunRR
    rw [if_neg (by omega), hval] at hrunRR
    dsimp only at hrunRR
    rw [hs, he] at hrunRR
    dsimp only at hrunRR
    rw [if_neg (by omega)] at hrunRR
    obtain ⟨hidx, hbound, hcross, hlen0⟩ := rangeLoopInv_run n s e step l hrunRR
    have hlen : 0 < l.length := hlen0 (le_of_lt hlt) (aware_of_tz_eq htz)
    refine ⟨hlen, ?_, hidx, hbound, hcross⟩
    rcases l with _ | ⟨a, t2⟩
    · simp at hlen
    · have h0 := hidx 0 (by simp)
      simp at h0
      simp [h0]
  · intro htz hlt hcneg hmono
    have hval : r.validate_time_inversion =
        .error (.valueError ("time inversion found: " ++ dtStr s ++ " > " ++ dtStr e)) := by
      simp [DateTimeRange.validate_time_inversion, hs, he, htz, hlt]
    obtain ⟨n, l, hrun, -, -, -⟩ :=
      rangeLoopInv_spec (s.val - e.val).toNat s e step hmono
        (fun t => dtAddDelta_tz t step) (aware_of_tz_eq htz) le_rfl
    refine ⟨n, l, ?_⟩
    unfold DateTimeRange.rangeRun
    rw [if_neg (by omega), hval]
    dsimp only
    rw [hs, he]
    dsimp only
    rw [if_neg (by omega)]
    exact hrun

/-- Claim C3 witness: the forward arithmetic progression on a 4-element
fixed-duration example, the inverted sequence on the mirrored range, and a
terminating calendar-step run (one day, three yields over a two-day forward
range) shown to be exactly the iterated calendar additions. -/
theorem C3_range_sequence_witness :
    (∃ (n : Nat) (l : List DTime),
      (DateTimeRange.make (some ⟨0, some 32400⟩) (some ⟨600000000, some 32400⟩)
        none none).rangeRun (Delta.td ⟨200000000⟩) n = some (.ok l) ∧
      0 < l.length ∧ l.head? = some ⟨0, some 32400⟩ ∧
      (∀ i (h : i < l.length),
        l.get ⟨i, h⟩ = ⟨(0 : Int) + i * 200000000, some 32400⟩) ∧
      (∀ d ∈ l, d.val ≤ (600000000 : Int)) ∧
      (600000000 : Int) < 0 + l.length * 200000000) ∧
    (∃ (n : Nat) (l : List DTime),
      (DateTimeRange.make (some ⟨600000000, some 32400⟩) (some ⟨0, some 32400⟩)
        none none).rangeRun (Delta.td ⟨-200000000⟩) n = some (.ok l) ∧
      0 < l.length ∧ l.head? = some ⟨600000000, some 32400⟩ ∧
      (∀ i (h : i < l.length),
        l.get ⟨i, h⟩ = ⟨(600000000 : Int) + i * -200000000, some 32400⟩) ∧
      (∀ d ∈ l, (0 : Int) ≤ d.val) ∧
      600000000 + l.length * (-200000000 : Int) < 0) ∧
    (0 < ([⟨0, none⟩, ⟨86400000000, none⟩, ⟨172800000000, none⟩] : List DTime).length ∧
     ([⟨0, none⟩, ⟨86400000000, none⟩, ⟨172800000000, none⟩] : List DTime).head? =
       some ⟨0, none⟩ ∧
     (∀ i (h : i < ([⟨0, none⟩, ⟨86400000000, none⟩, ⟨172800000000, none⟩] :
         List DTime).length),
       ([⟨0, none⟩, ⟨86400000000, none⟩, ⟨172800000000, none⟩] : List DTime).get ⟨i, h⟩ =
         (fun t => dtAddDelta t (Delta.rd ⟨0, 0, 1, 0, 0, 0, 0⟩))^[i] (⟨0, none⟩ : DTime)) ∧
     (∀ d ∈ ([⟨0, none⟩, ⟨86400000000, none⟩, ⟨172800000000, none⟩] : List DTime),
       d.val ≤ (⟨172800000000, none⟩ : DTime).val) ∧
     (⟨172800000000, none⟩ : DTime).val <
       ((fun t => dtAddDelta t (Delta.rd ⟨0, 0, 1, 0, 0, 0, 0⟩))^[
         ([⟨0, none⟩, ⟨86400000000, none⟩, ⟨172800000000, none⟩] : List DTime).length]
         (⟨0, none⟩ : DTime)).val) := by
  refine ⟨?_, ?_, ?_⟩
  · exact (C3_range_sequence
      (DateTimeRange.make (some ⟨0, some 32400⟩) (some ⟨600000000, some 32400⟩) none none)
      (Delta.td ⟨200000000⟩) ⟨0, some 32400⟩ ⟨600000000, some 32400⟩ rfl rfl).1
      ⟨200000000⟩ rfl (by rfl) (by norm_num)
  · exact (C3_range_sequence
      (DateTimeRange.make (some ⟨600000000, some 32400⟩) (some ⟨0, some 32400⟩) none none)
      (Delta.td ⟨-200000000⟩) ⟨600000000, some 32400⟩ ⟨0, some 32400⟩ rfl rfl).2.1
      ⟨-200000000⟩ rfl rfl (by norm_num) (by decide)
  · exact (C3_range_sequence
      (DateTimeRange.make (some ⟨0, none⟩) (some ⟨172800000000, none⟩) none none)
      (Delta.rd ⟨0, 0, 1, 0, 0, 0, 0⟩) ⟨0, none⟩ ⟨172800000000, none⟩ rfl rfl).2.2.1
      (by rfl) (by decide) 5
      [⟨0, none⟩, ⟨86400000000, none⟩, ⟨172800000000, none⟩] (by rfl)
